import Mathlib

/-!
Verification development for the ethflow ingestion scripts.

The repository has two near-duplicate implementations of one ingestion loop:
  * `scripts/data_retrieval.py` (the local-file variant, entry point `main`), and
  * `scripts/lambda/infura-integration/infura_integration/app.py`
    (the cloud-function variant, entry point `lambda_handler`).

This file is a shallow embedding of both.  Python dict values are modelled by
the inductive `PyVal` (JSON-ish values; Python floats produced by the
`x / 1e9` and `x / 1e18` divisions are modelled as exact rationals - every
property proved here depends only on presence/absence/shape of values, never
on float rounding).  Python exceptions are modelled by `Except PyErr`.
The remote endpoint, the checkpoint store and the object sink are external
collaborators: fetches are an oracle `blockOf : Nat -> Option Dict`
(`none` models a JSON-RPC response without a `result` field, which the code
turns into `ValueError`), the recursive `get_size` estimator (whose exact
byte counts are CPython-specific) is an arbitrary function parameter, and
writes/checkpoint saves are recorded in an event trace.

`Event.write` carries, besides the artifact path and contents, the list of
block numbers whose records the artifact contains (`covers`).  This field is
ghost instrumentation mirroring the batch contents; it exists so that
checkpoint-after-write ordering can be stated about the trace.
-/

/-- Python exception kinds that the embedded code can raise. -/
inductive PyErr : Type
  | keyError
  | typeError
  | valueError
  | nameError
  deriving DecidableEq, Repr

/-- Values stored in the Python dicts handled by the scripts. -/
inductive PyVal : Type
  | none
  | str (s : String)
  | int (n : Int)
  | rat (q : Rat)
  | list (l : List PyVal)
  | dict (d : List (String × PyVal))

/-- A Python dict with string keys, as an association list. -/
abbrev Dict : Type := List (String × PyVal)

/-- Key lookup: `some v` when the key is present (possibly bound to `None`). -/
def dget (d : Dict) (k : String) : Option PyVal :=
  (d.find? (fun p => p.1 == k)).map (fun p => p.2)

/-- Python `d.get(k)`: the `None` object when the key is absent. -/
def pyGet (d : Dict) (k : String) : PyVal :=
  (dget d k).getD PyVal.none

/-- Python `d.get(k, dflt)`. -/
def pyGetD (d : Dict) (k : String) (dflt : PyVal) : PyVal :=
  (dget d k).getD dflt

/-- Python `d[k]`: raises `KeyError` when the key is absent. -/
def pyIndex (d : Dict) (k : String) : Except PyErr PyVal :=
  match dget d k with
  | Option.some v => Except.ok v
  | Option.none => Except.error PyErr.keyError

/-- Subscripting an arbitrary value; only dicts support it here. -/
def pyIndexV : PyVal → String → Except PyErr PyVal
  | PyVal.dict d, k => pyIndex d k
  | _, _ => Except.error PyErr.typeError

/-- Python `del d[k]` followed by use of `d` (key removal on a dict value). -/
def dictRemoveV : PyVal → String → PyVal
  | PyVal.dict d, k => PyVal.dict (d.filter (fun p => p.1 != k))
  | v, _ => v

/-- Python truthiness of the values in our universe. -/
def pyTruthy : PyVal → Bool
  | PyVal.none => false
  | PyVal.str s => !s.isEmpty
  | PyVal.int n => n != 0
  | PyVal.rat q => q != 0
  | PyVal.list l => !l.isEmpty
  | PyVal.dict d => !d.isEmpty

/-! ### Hexadecimal conversion: `int(s, 16)` and `hex(n)` -/

/-- Value of one hexadecimal digit character (both cases), as in Python. -/
def hexDigit? (c : Char) : Option Nat :=
  if '0' ≤ c ∧ c ≤ '9' then Option.some (c.toNat - 48)
  else if 'a' ≤ c ∧ c ≤ 'f' then Option.some (c.toNat - 87)
  else if 'A' ≤ c ∧ c ≤ 'F' then Option.some (c.toNat - 55)
  else Option.none

/-- Digit sequence of an integer literal, base 16, starting from accumulator
`acc`.  A single underscore is allowed between digits (Python's grouping
rule); a trailing or doubled underscore is rejected. -/
def hexTail (acc : Nat) : List Char → Option Nat
  | [] => Option.some acc
  | '_' :: c :: cs => (hexDigit? c).bind fun d => hexTail (16 * acc + d) cs
  | ['_'] => Option.none
  | c :: cs => (hexDigit? c).bind fun d => hexTail (16 * acc + d) cs

/-- Digits after a `0x`/`0X` base marker: must be nonempty, and Python also
allows a single underscore directly after the marker. -/
def hexPrefixedTail : List Char → Option Nat
  | [] => Option.none
  | l => hexTail 0 l

/-- Body of a base-16 integer literal, after sign removal: an optional
`0x`/`0X` marker followed by digits; without the marker the first character
must be a digit. -/
def hexBody : List Char → Option Nat
  | '0' :: 'x' :: r => hexPrefixedTail r
  | '0' :: 'X' :: r => hexPrefixedTail r
  | c :: r => (hexDigit? c).bind fun d => hexTail d r
  | [] => Option.none

/-- Is `c` one of the ASCII whitespace characters Python strips from an
integer literal string. -/
def isPySpace (c : Char) : Bool :=
  c == ' ' || c == '\t' || c == '\n' || c == '\r' || c == '\x0b' || c == '\x0c'

/-- Strip leading and trailing whitespace from a character list. -/
def listTrim (l : List Char) : List Char :=
  ((l.dropWhile isPySpace).reverse.dropWhile isPySpace).reverse

/-- Python `int(s, 16)`: optional surrounding whitespace, optional sign,
optional `0x`/`0X` marker, hex digits with Python's underscore rule.
`none` models the `ValueError` Python raises on a malformed literal. -/
def pyIntBase16 (s : String) : Option Int :=
  match listTrim s.toList with
  | '+' :: r => (hexBody r).map (fun n => Int.ofNat n)
  | '-' :: r => (hexBody r).map (fun n => -(Int.ofNat n))
  | r => (hexBody r).map (fun n => Int.ofNat n)

/-- Lowercase hexadecimal digit character of a value below 16. -/
def hexChar (d : Nat) : Char :=
  if d < 10 then Char.ofNat (48 + d) else Char.ofNat (87 + d)

/-- Little-endian lowercase hexadecimal digit characters of `n`, with
explicit fuel so that the definition reduces by kernel computation
(`fuel = n` is always enough; see `natToHexRev_eq_digits`). -/
def natToHexRev (fuel : Nat) (n : Nat) : List Char :=
  match fuel with
  | 0 => []
  | fuel + 1 => if n = 0 then [] else hexChar (n % 16) :: natToHexRev fuel (n / 16)

/-- Big-endian lowercase hexadecimal digit characters of `n` (empty for 0). -/
def natToHexDigits (n : Nat) : List Char :=
  (natToHexRev n n).reverse

/-- Python `hex(n)`: `0x`-prefixed lowercase rendering. -/
def pyHex (n : Int) : String :=
  if n < 0 then "-0x" ++ (if n.natAbs = 0 then "0" else String.mk (natToHexDigits n.natAbs))
  else if n = 0 then "0x0"
  else "0x" ++ String.mk (natToHexDigits n.toNat)

/-- Canonical digit list of a `0x`-prefixed hex string with leading zeros
removed; `none` when the string is not `0x`-prefixed.  Two hex strings are
equal "up to leading-zero normalization" exactly when their canonical digit
lists agree. -/
def hexCanon (s : String) : Option (List Char) :=
  match s.toList with
  | '0' :: 'x' :: ds => Option.some (ds.dropWhile (fun c => c == '0'))
  | _ => Option.none

/-- The sixteen lowercase hexadecimal digit characters. -/
def lowerHexChars : List Char :=
  ['0', '1', '2', '3', '4', '5', '6', '7'] ++
    ['8', '9', 'a', 'b', 'c', 'd', 'e', 'f']

/-- Digit value used when folding a known-valid digit list. -/
def hexValD (c : Char) : Nat := (hexDigit? c).getD 0

/-- Value of a big-endian list of hexadecimal digit characters. -/
def hexListVal (ds : List Char) : Nat :=
  ds.foldl (fun a c => 16 * a + hexValD c) 0

/-- Leading-zero normalization of a nonempty big-endian digit list. -/
def stripLeadZeros (ds : List Char) : List Char :=
  match ds.dropWhile (fun c => c == '0') with
  | [] => ['0']
  | l => l

/-! ### Codec: `safe_hex_to_int`, `convert_transaction`, `convert_block_data` -/

/-- `safe_hex_to_int(hex_str)` with the default `None`: converts a hex string
to an integer and passes `None` through; `int(x, 16)` raises `ValueError` on
a malformed string and `TypeError` on a non-string. -/
def safe_hex_to_int (v : PyVal) : Except PyErr PyVal :=
  match v with
  | PyVal.none => Except.ok PyVal.none
  | PyVal.str s =>
    match pyIntBase16 s with
    | Option.some n => Except.ok (PyVal.int n)
    | Option.none => Except.error PyErr.valueError
  | _ => Except.error PyErr.typeError

/-- Python `x / scale` on the result of `safe_hex_to_int`: an `int` or
`float` divides, anything else (in particular `None`) raises `TypeError`. -/
def pyDiv (v : PyVal) (scale : Rat) : Except PyErr PyVal :=
  match v with
  | PyVal.int n => Except.ok (PyVal.rat ((n : Rat) / scale))
  | PyVal.rat q => Except.ok (PyVal.rat (q / scale))
  | _ => Except.error PyErr.typeError

/-- The `1e9` divisor (gwei scale). -/
def gweiScale : Rat := 1000000000

/-- The `1e18` divisor (eth scale). -/
def ethScale : Rat := 1000000000000000000

/-- The source pattern
`safe_hex_to_int(tx.get(k)) / 1e9 if tx.get(k) else None`
used for the three `_gwei` fields of a transaction. -/
def scaledOpt (tx : Dict) (k : String) (scale : Rat) : Except PyErr PyVal :=
  if pyTruthy (pyGet tx k) then
    (safe_hex_to_int (pyGet tx k)).bind (fun w => pyDiv w scale)
  else Except.ok PyVal.none

/-- Pairs of hexadecimal digits to byte values, as `bytes.fromhex` (after
whitespace removal): an odd count or an invalid character is an error. -/
def bytesFromHexPairs : List Char → Option (List Nat)
  | [] => Option.some []
  | a :: b :: rest =>
    match hexDigit? a, hexDigit? b with
    | Option.some x, Option.some y => (bytesFromHexPairs rest).map (fun t => (16 * x + y) :: t)
    | _, _ => Option.none
  | [_] => Option.none

/-- `bytes.fromhex(s)`: ASCII whitespace is ignored, then digit pairs. -/
def bytesFromHex (l : List Char) : Option (List Nat) :=
  bytesFromHexPairs (l.filter (fun c => !isPySpace c))

/-- `.decode("ascii", errors="ignore")`: keep bytes below 128, drop the rest. -/
def asciiIgnoreDecode (bs : List Nat) : String :=
  String.mk (bs.filterMap (fun b => if b < 128 then Option.some (Char.ofNat b) else Option.none))

/-- The source expression
`bytes.fromhex(block_data["extraData"][2:]).decode("ascii", errors="ignore")`
applied to the value of the `extraData` field. -/
def extraDataText : PyVal → Except PyErr PyVal
  | PyVal.str s =>
    match bytesFromHex (s.toList.drop 2) with
    | Option.some bs => Except.ok (PyVal.str (asciiIgnoreDecode bs))
    | Option.none => Except.error PyErr.valueError
  | _ => Except.error PyErr.typeError

/-- Gregorian civil date from a day count relative to 1970-01-01
(standard era-based algorithm, matching what `datetime.fromtimestamp`
computes for a UTC timestamp). -/
def civilFromDays (z0 : Int) : Int × Nat × Nat :=
  let z : Int := z0 + 719468
  let era : Int := z.fdiv 146097
  let doe : Nat := (z - era * 146097).toNat
  let yoe : Nat := (doe - doe / 1460 + doe / 36524 - doe / 146096) / 365
  let y : Int := (yoe : Int) + era * 400
  let doy : Nat := doe - (365 * yoe + yoe / 4 - yoe / 100)
  let mp : Nat := (5 * doy + 2) / 153
  let d : Nat := doy - (153 * mp + 2) / 5 + 1
  let m : Nat := if mp < 10 then mp + 3 else mp - 9
  (if m ≤ 2 then y + 1 else y, m, d)

/-- Left-pad a decimal rendering with zeros to width 2. -/
def pad2 (n : Nat) : String :=
  if n < 10 then "0" ++ Nat.repr n else Nat.repr n

/-- Left-pad a decimal rendering with zeros to width 4 (as `%Y`). -/
def pad4 (n : Nat) : String :=
  if n < 10 then "000" ++ Nat.repr n
  else if n < 100 then "00" ++ Nat.repr n
  else if n < 1000 then "0" ++ Nat.repr n
  else Nat.repr n

/-- The source expression
`datetime.fromtimestamp(ts, tz=timezone.utc).strftime("%Y-%m-%d %H:%M:%S UTC")`:
format a Unix timestamp as a UTC calendar string; `none` models the error
Python raises when the result falls outside year range 1..9999. -/
def formatUtc (ts : Int) : Option String :=
  let days : Int := ts.fdiv 86400
  let sod : Nat := (ts - 86400 * days).toNat
  match civilFromDays days with
  | (y, m, d) =>
    if y < 1 ∨ 9999 < y then Option.none
    else Option.some (pad4 y.toNat ++ "-" ++ pad2 m ++ "-" ++ pad2 d ++ " " ++
      pad2 (sod / 3600) ++ ":" ++ pad2 (sod % 3600 / 60) ++ ":" ++ pad2 (sod % 60) ++ " UTC")

/-- The `timestamp_readable` entry: `datetime.fromtimestamp` needs an
integer (a `None` timestamp raises `TypeError`). -/
def tsReadable : PyVal → Except PyErr PyVal
  | PyVal.int n =>
    match formatUtc n with
    | Option.some s => Except.ok (PyVal.str s)
    | Option.none => Except.error PyErr.valueError
  | _ => Except.error PyErr.typeError

/-- `convert_transaction(tx)` from `data_retrieval.py` lines 106-142:
the dict-literal entries are evaluated in source order, so the first failing
entry determines the raised exception.  Fields read with `tx.get(...)` are
optional (absence becomes `None`); fields read with `tx[...]` raise
`KeyError` when absent. -/
def convert_transaction (tx : Dict) : Except PyErr PyVal :=
  (safe_hex_to_int (pyGet tx "blockNumber")).bind fun blockNumber =>
  (safe_hex_to_int (pyGet tx "chainId")).bind fun chainId =>
  (pyIndex tx "from").bind fun fromV =>
  (pyIndex tx "gas").bind fun gasV =>
  (safe_hex_to_int gasV).bind fun gas =>
  (safe_hex_to_int (pyGet tx "gasPrice")).bind fun gasPrice =>
  (scaledOpt tx "gasPrice" gweiScale).bind fun gasPriceGwei =>
  (pyIndex tx "hash").bind fun hashV =>
  (pyIndex tx "input").bind fun inputV =>
  (safe_hex_to_int (pyGet tx "maxFeePerGas")).bind fun maxFeePerGas =>
  (scaledOpt tx "maxFeePerGas" gweiScale).bind fun maxFeePerGasGwei =>
  (safe_hex_to_int (pyGet tx "maxPriorityFeePerGas")).bind fun maxPriorityFeePerGas =>
  (scaledOpt tx "maxPriorityFeePerGas" gweiScale).bind fun maxPriorityFeePerGasGwei =>
  (pyIndex tx "nonce").bind fun nonceV =>
  (safe_hex_to_int nonceV).bind fun nonce =>
  (pyIndex tx "r").bind fun rV =>
  (pyIndex tx "s").bind fun sV =>
  (safe_hex_to_int (pyGet tx "transactionIndex")).bind fun transactionIndex =>
  (pyIndex tx "type").bind fun typeV =>
  (safe_hex_to_int typeV).bind fun typeN =>
  (pyIndex tx "v").bind fun vV =>
  (safe_hex_to_int vV).bind fun vN =>
  (pyIndex tx "value").bind fun valueV =>
  (safe_hex_to_int valueV).bind fun value =>
  (match valueV with
   | PyVal.none => Except.ok PyVal.none
   | _ => (safe_hex_to_int valueV).bind (fun w => pyDiv w ethScale)).bind fun valueEth =>
  (safe_hex_to_int (pyGet tx "yParity")).bind fun yParity =>
  Except.ok (PyVal.dict
    [("accessList", pyGetD tx "accessList" (PyVal.list [])),
     ("blockHash", pyGet tx "blockHash"),
     ("blockNumber", blockNumber),
     ("chainId", chainId),
     ("from", fromV),
     ("gas", gas),
     ("gasPrice", gasPrice),
     ("gasPrice_gwei", gasPriceGwei),
     ("hash", hashV),
     ("input", inputV),
     ("maxFeePerGas", maxFeePerGas),
     ("maxFeePerGas_gwei", maxFeePerGasGwei),
     ("maxPriorityFeePerGas", maxPriorityFeePerGas),
     ("maxPriorityFeePerGas_gwei", maxPriorityFeePerGasGwei),
     ("nonce", nonce),
     ("r", rV),
     ("s", sV),
     ("to", pyGet tx "to"),
     ("transactionIndex", transactionIndex),
     ("type", typeN),
     ("v", vN),
     ("value", value),
     ("value_eth", valueEth),
     ("yParity", yParity)])

/-- Convert the `transactions` list of a block, in order, first error wins. -/
def convertTxList : List PyVal → Except PyErr (List PyVal)
  | [] => Except.ok []
  | t :: rest =>
    (match t with
     | PyVal.dict d => convert_transaction d
     | _ => Except.error PyErr.typeError).bind fun v =>
    (convertTxList rest).map (fun l => v :: l)

/-- `convert_block_data(block_data)` from `data_retrieval.py` lines 145-176:
every field is read with `block_data[...]` (so absence raises `KeyError`),
and the `baseFeePerGas_gwei` entry divides `safe_hex_to_int(...)` by `1e9`
with no `None` guard (so a null `baseFeePerGas` raises `TypeError`).
Entries are evaluated in source order. -/
def convert_block_data (b : Dict) : Except PyErr PyVal :=
  (pyIndex b "baseFeePerGas").bind fun bfgV =>
  (safe_hex_to_int bfgV).bind fun baseFeePerGas =>
  ((safe_hex_to_int bfgV).bind (fun w => pyDiv w gweiScale)).bind fun baseFeePerGasGwei =>
  (pyIndex b "blobGasUsed").bind fun bguV =>
  (safe_hex_to_int bguV).bind fun blobGasUsed =>
  (pyIndex b "difficulty").bind fun diffV =>
  (safe_hex_to_int diffV).bind fun difficulty =>
  (pyIndex b "excessBlobGas").bind fun ebgV =>
  (safe_hex_to_int ebgV).bind fun excessBlobGas =>
  (pyIndex b "extraData").bind fun edV =>
  (extraDataText edV).bind fun extraData =>
  (pyIndex b "gasLimit").bind fun glV =>
  (safe_hex_to_int glV).bind fun gasLimit =>
  (pyIndex b "gasUsed").bind fun guV =>
  (safe_hex_to_int guV).bind fun gasUsed =>
  (pyIndex b "hash").bind fun hashV =>
  (pyIndex b "logsBloom").bind fun logsBloomV =>
  (pyIndex b "miner").bind fun minerV =>
  (pyIndex b "mixHash").bind fun mixHashV =>
  (pyIndex b "nonce").bind fun nonV =>
  (safe_hex_to_int nonV).bind fun nonce =>
  (pyIndex b "number").bind fun numV =>
  (safe_hex_to_int numV).bind fun number =>
  (pyIndex b "parentBeaconBlockRoot").bind fun pbbrV =>
  (pyIndex b "parentHash").bind fun parentHashV =>
  (pyIndex b "receiptsRoot").bind fun receiptsRootV =>
  (pyIndex b "sha3Uncles").bind fun sha3UnclesV =>
  (pyIndex b "size").bind fun sizeV =>
  (safe_hex_to_int sizeV).bind fun sizeN =>
  (pyIndex b "stateRoot").bind fun stateRootV =>
  (pyIndex b "timestamp").bind fun tstV =>
  (safe_hex_to_int tstV).bind fun timestamp =>
  (tsReadable timestamp).bind fun timestampReadable =>
  (pyIndex b "transactions").bind fun txsV =>
  (match txsV with
   | PyVal.list ts => convertTxList ts
   | _ => Except.error PyErr.typeError).bind fun txs =>
  Except.ok (PyVal.dict
    [("baseFeePerGas", baseFeePerGas),
     ("baseFeePerGas_gwei", baseFeePerGasGwei),
     ("blobGasUsed", blobGasUsed),
     ("difficulty", difficulty),
     ("excessBlobGas", excessBlobGas),
     ("extraData", extraData),
     ("gasLimit", gasLimit),
     ("gasUsed", gasUsed),
     ("hash", hashV),
     ("logsBloom", logsBloomV),
     ("miner", minerV),
     ("mixHash", mixHashV),
     ("nonce", nonce),
     ("number", number),
     ("parentBeaconBlockRoot", pbbrV),
     ("parentHash", parentHashV),
     ("receiptsRoot", receiptsRootV),
     ("sha3Uncles", sha3UnclesV),
     ("size", sizeN),
     ("stateRoot", stateRootV),
     ("timestamp", timestamp),
     ("timestamp_readable", timestampReadable),
     ("transactions", PyVal.list txs)])

/-! ### Ingestion loop models

Both entry points are modelled as pure functions from the run parameters
(the fetch oracle, the size estimator, the initial checkpoint-store content,
the latest block number, the run timestamp string) to a final checkpoint
value, an event trace, and an optional uncaught/caught terminal error. -/

/-- Externally observable steps of a run.  `fetch n` is the attempt to fetch
block `n` (the scripts log `Getting block n` before the request);
`write path content covers` is one output artifact, where `covers` is ghost
instrumentation listing the numbers of the blocks whose records `content`
holds (empty for transaction-stream artifacts); `saveCp n` is a checkpoint
persistence of value `n`. -/
inductive Event : Type
  | fetch (n : Nat)
  | write (path : String) (content : List PyVal) (covers : List Nat)
  | saveCp (n : Nat)

/-- Block numbers fetched, in order. -/
def traceFetches : List Event → List Nat
  | [] => []
  | Event.fetch n :: t => n :: traceFetches t
  | _ :: t => traceFetches t

/-- Paths of the artifacts written, in order. -/
def tracePaths : List Event → List String
  | [] => []
  | Event.write p _ _ :: t => p :: tracePaths t
  | _ :: t => tracePaths t

/-- Checkpoint values persisted, in order. -/
def traceSaves : List Event → List Nat
  | [] => []
  | Event.saveCp n :: t => n :: traceSaves t
  | _ :: t => traceSaves t

/-- Ghost cover list of one event. -/
def coversOf : Event → List Nat
  | Event.write _ _ covers => covers
  | _ => []

/-- All block numbers covered by the artifacts of a trace. -/
def flatCovers : List Event → List Nat
  | [] => []
  | e :: t => coversOf e ++ flatCovers t

/-- Checkpoint-after-write checker: walking the trace with `written` the
blocks already covered by earlier artifacts, every `saveCp n` must find
every block of `range` that is `≤ n` already written. -/
def cpAfterWrite (range : List Nat) (written : List Nat) : List Event → Bool
  | [] => true
  | e :: t =>
    (match e with
     | Event.saveCp n => range.all (fun b => decide (n < b) || written.contains b)
     | _ => true) && cpAfterWrite range (written ++ coversOf e) t

/-- `MAX_SIZE_BYTES` of `data_retrieval.py` (100 MB). -/
def MAX_SIZE_BYTES : Nat := 100 * 1024 * 1024

/-- `MAX_SIZE_BYTES` of `app.py` (20 MB). -/
def MAX_SIZE_BYTES_LAMBDA : Nat := 20 * 1024 * 1024

/-- The ascending block range `[start, latest]` the loop iterates over
(empty when `start > latest`). -/
def blockRange (start latest : Nat) : List Nat :=
  List.range' start (latest + 1 - start)

/-- The record the local-script loop appends to its block batch for a raw
block: the block normalized by `convert_block_data`, with its
`transactions` entry removed (`del readable_data["transactions"]`). -/
def local_block_record (bd : Dict) : Except PyErr PyVal :=
  (convert_block_data bd).map (fun r => dictRemoveV r "transactions")

/-- The record the cloud-function loop appends to its block batch for a raw
block: the raw block dict unchanged (no normalization is applied). -/
def lambda_block_record (bd : Dict) : PyVal :=
  PyVal.dict bd

/-- Run parameters of the local script: the fetch oracle (`none` models a
JSON-RPC response without a `result` field, raised as `ValueError`) and the
two `get_size` estimates, arbitrary since `sys.getsizeof` is
CPython-specific. -/
structure ParamsL : Type where
  blockOf : Nat → Option Dict
  gsB : List PyVal → Nat
  gsT : List PyVal → Nat

/-- Loop state of `main` in `data_retrieval.py`: the two batch buffers, the
ghost list of block numbers in the block buffer, the two file indices, and
the event trace so far. -/
structure StL : Type where
  blocksData : List PyVal
  txsData : List PyVal
  bNums : List Nat
  bIdx : Nat
  tIdx : Nat
  trace : List Event

/-- One iteration of the `while` loop of `main` (`data_retrieval.py` lines
215-247) at block `n`: fetch, convert, extend the transaction batch, append
the block record, then flush either batch whose size estimate reached
`MAX_SIZE_BYTES` (mid-run flush paths carry no directory and no timestamp).
On an exception the state so far is returned with the error. -/
def stepL (P : ParamsL) (st : StL) (n : Nat) : StL × Option PyErr :=
  let st0 : StL := { st with trace := st.trace ++ [Event.fetch n] }
  match P.blockOf n with
  | Option.none => (st0, Option.some PyErr.valueError)
  | Option.some bd =>
    match convert_block_data bd with
    | Except.error e => (st0, Option.some e)
    | Except.ok readable =>
      match pyIndexV readable "transactions" with
      | Except.error e => (st0, Option.some e)
      | Except.ok txsV =>
        match txsV with
        | PyVal.list txList =>
          let txsData1 := st.txsData ++ txList
          let blocksData1 := st.blocksData ++ [dictRemoveV readable "transactions"]
          let bNums1 := st.bNums ++ [n]
          let bPart : List PyVal × List Nat × Nat × List Event :=
            if MAX_SIZE_BYTES ≤ P.gsB blocksData1 then
              ([], [], st.bIdx + 1,
               [Event.write ("blocks_" ++ Nat.repr st.bIdx ++ ".json") blocksData1 bNums1])
            else (blocksData1, bNums1, st.bIdx, [])
          let tPart : List PyVal × Nat × List Event :=
            if MAX_SIZE_BYTES ≤ P.gsT txsData1 then
              ([], st.tIdx + 1,
               [Event.write ("transactions_" ++ Nat.repr st.tIdx ++ ".json") txsData1 []])
            else (txsData1, st.tIdx, [])
          ({ blocksData := bPart.1, bNums := bPart.2.1, bIdx := bPart.2.2.1,
             txsData := tPart.1, tIdx := tPart.2.1,
             trace := st0.trace ++ bPart.2.2.2 ++ tPart.2.2 }, Option.none)
        | _ => (st0, Option.some PyErr.typeError)

/-- The block loop of `main`: process the numbers in order, stopping at the
first exception. -/
def runL (P : ParamsL) : List Nat → StL → StL × Option PyErr
  | [], st => (st, Option.none)
  | n :: ns, st =>
    match stepL P st n with
    | (st1, Option.none) => runL P ns st1
    | (st1, Option.some e) => (st1, Option.some e)

/-- Result of one run: the checkpoint-store content after the run, the
event trace, and the terminal error if any (both scripts catch or surface
it and in either case perform no further writes). -/
structure RunResult : Type where
  store : Option Nat
  trace : List Event
  err : Option PyErr

/-- Events emitted by `initialize_checkpoint_db`: when the checkpoint table
is empty it inserts the sentinel value 0 (`data_retrieval.py` lines 49-52). -/
def initTrace : Option Nat → List Event
  | Option.none => [Event.saveCp 0]
  | Option.some _ => []

/-- The start block both variants derive: `latest` when the loaded
checkpoint is falsy (`None` or 0), `checkpoint + 1` otherwise. -/
def startBlock (store0 : Option Nat) (latest : Nat) : Nat :=
  if store0.getD 0 = 0 then latest else store0.getD 0 + 1

/-- `main()` of `data_retrieval.py` (lines 190-271): initialize the
checkpoint table (inserting the sentinel `0` when the store is empty), load
the checkpoint, derive the start block (`latest` when the loaded value is
falsy, `checkpoint + 1` otherwise), run the loop, then on success write the
remaining batches under `./output/<timestamp>/` and save the checkpoint as
`latest`.  Any exception is caught, logged, and ends the run with no
further writes (in particular no checkpoint save). -/
def main_local (P : ParamsL) (store0 : Option Nat) (latest : Nat) (ts : String) : RunResult :=
  let prev : Nat := store0.getD 0
  let start : Nat := startBlock store0 latest
  let stInit : StL :=
    { blocksData := [], txsData := [], bNums := [], bIdx := 1, tIdx := 1,
      trace := initTrace store0 }
  match runL P (blockRange start latest) stInit with
  | (st, Option.some e) => { store := Option.some prev, trace := st.trace, err := Option.some e }
  | (st, Option.none) =>
    let tr1 : List Event :=
      if st.blocksData.isEmpty then []
      else [Event.write ("./output/" ++ ts ++ "/blocks_" ++ Nat.repr st.bIdx ++ ".json")
        st.blocksData st.bNums]
    let tr2 : List Event :=
      if st.txsData.isEmpty then []
      else [Event.write ("./output/" ++ ts ++ "/transactions_" ++ Nat.repr st.tIdx ++ ".json")
        st.txsData []]
    { store := Option.some latest, trace := st.trace ++ tr1 ++ tr2 ++ [Event.saveCp latest],
      err := Option.none }

/-- Artifact name used by `lambda_handler` for every block-stream flush:
run timestamp plus per-run sequence number. -/
def lambdaName (ts : String) (i : Nat) : String :=
  "blocks/blocks_" ++ ts ++ "_" ++ Nat.repr i ++ ".json"

/-- Run parameters of the cloud function (one stream, one size estimate). -/
structure ParamsLam : Type where
  blockOf : Nat → Option Dict
  gs : List PyVal → Nat

/-- Loop state of `lambda_handler`: block buffer, ghost block numbers,
file index, current checkpoint-store content, trace. -/
structure StLam : Type where
  blocksData : List PyVal
  bNums : List Nat
  bIdx : Nat
  store : Option Nat
  trace : List Event

/-- One iteration of the `while` loop of `lambda_handler` (`app.py` lines
132-147) at block `n`: fetch through
`fetch_block_data_with_rate_limit_retry`, append the raw block, and when
the size estimate reaches the threshold write the batch and then save the
checkpoint as `n` (write first, checkpoint second).

A fetch whose response lacks the `result` field raises `ValueError` inside
the wrapper; evaluating the wrapper's `except HTTPError` clause then raises
`NameError`, because the name `HTTPError` is never imported in `app.py`, so
what propagates out of the step is `NameError`. -/
def stepLam (P : ParamsLam) (ts : String) (st : StLam) (n : Nat) : StLam × Option PyErr :=
  let st0 : StLam := { st with trace := st.trace ++ [Event.fetch n] }
  match P.blockOf n with
  | Option.none => (st0, Option.some PyErr.nameError)
  | Option.some bd =>
    let blocksData1 := st.blocksData ++ [lambda_block_record bd]
    let bNums1 := st.bNums ++ [n]
    if MAX_SIZE_BYTES_LAMBDA ≤ P.gs blocksData1 then
      ({ blocksData := [], bNums := [], bIdx := st.bIdx + 1, store := Option.some n,
         trace := st0.trace ++ [Event.write (lambdaName ts st.bIdx) blocksData1 bNums1,
           Event.saveCp n] }, Option.none)
    else ({ st0 with blocksData := blocksData1, bNums := bNums1 }, Option.none)

/-- The block loop of `lambda_handler`. -/
def runLam (P : ParamsLam) (ts : String) : List Nat → StLam → StLam × Option PyErr
  | [], st => (st, Option.none)
  | n :: ns, st =>
    match stepLam P ts st n with
    | (st1, Option.none) => runLam P ts ns st1
    | (st1, Option.some e) => (st1, Option.some e)

/-- `lambda_handler` of `app.py` (lines 112-188): load the last block from
the store (`None` when absent), derive the start block as in the local
script, run the loop, then on success write any remaining batch and save
the checkpoint as `latest`.  On an exception no further write or save
happens (the handler's own `except` clauses all reference the unbound name
`HTTPError` first, so the error in fact escapes as `NameError`; either way
the run ends). -/
def lambda_handler (P : ParamsLam) (store0 : Option Nat) (latest : Nat) (ts : String) :
    RunResult :=
  let start : Nat := startBlock store0 latest
  let stInit : StLam :=
    { blocksData := [], bNums := [], bIdx := 1, store := store0, trace := [] }
  match runLam P ts (blockRange start latest) stInit with
  | (st, Option.some e) => { store := st.store, trace := st.trace, err := Option.some e }
  | (st, Option.none) =>
    let tr1 : List Event :=
      if st.blocksData.isEmpty then []
      else [Event.write (lambdaName ts st.bIdx) st.blocksData st.bNums]
    { store := Option.some latest, trace := st.trace ++ tr1 ++ [Event.saveCp latest],
      err := Option.none }

/-! ### Rate-limit retry wrapper (`app.py` lines 67-90)

`fetch_block_data_with_rate_limit_retry` is a `while True` loop whose body
calls `fetch_block_data` and returns its value on success.  When the call
raises, Python evaluates the clause `except HTTPError as e`; the name
`HTTPError` is not bound anywhere in `app.py` (the module imports only
`HTTPAdapter` and `Retry` from `requests.adapters`), so this lookup itself
raises `NameError`, which replaces the in-flight exception and propagates;
the later `except Exception` clause of the same `try` statement is not
consulted.  Hence the body runs at most once and the sleep/retry
statements (which also reference the unbound name `time`) are unreachable. -/

/-- Outcome of one underlying `fetch_block_data` call: a result dict, an
`HTTPError` with its status code and optional `X-RateLimit-Reset` header
(status 429 signals rate limiting), or the `ValueError` raised on a
response without a `result` field. -/
inductive AttemptResult : Type
  | success (d : Dict)
  | raiseHTTP (status : Nat) (resetHeader : Option Int)
  | raiseValue

/-- `fetch_block_data_with_rate_limit_retry`, given the sequence of
outcomes the underlying call would produce on successive attempts.  Because
matching any exception against the unbound name `HTTPError` raises
`NameError`, only attempt 0 ever runs. -/
def fetch_block_data_with_rate_limit_retry (attempts : Nat → AttemptResult) :
    Except PyErr Dict :=
  match attempts 0 with
  | AttemptResult.success d => Except.ok d
  | AttemptResult.raiseHTTP _ _ => Except.error PyErr.nameError
  | AttemptResult.raiseValue => Except.error PyErr.nameError

/-! ### Concrete example inputs used by witnesses and counterexamples -/

/-- A well-formed raw block (hex fields as returned by the endpoint, no
transactions), used as the generic fetch result in concrete runs. -/
def exBlock : Dict :=
  [("baseFeePerGas", PyVal.str "0x1"), ("blobGasUsed", PyVal.str "0x0"),
   ("difficulty", PyVal.str "0x0"), ("excessBlobGas", PyVal.str "0x0"),
   ("extraData", PyVal.str "0x"), ("gasLimit", PyVal.str "0x1"), ("gasUsed", PyVal.str "0x0"),
   ("hash", PyVal.str "0xabc"), ("logsBloom", PyVal.str "0x0"), ("miner", PyVal.str "0xdef"),
   ("mixHash", PyVal.str "0x123"), ("nonce", PyVal.str "0x0"), ("number", PyVal.str "0x2"),
   ("parentBeaconBlockRoot", PyVal.str "0x1"), ("parentHash", PyVal.str "0x1"),
   ("receiptsRoot", PyVal.str "0x1"), ("sha3Uncles", PyVal.str "0x1"),
   ("size", PyVal.str "0x1"), ("stateRoot", PyVal.str "0x1"), ("timestamp", PyVal.str "0x0"),
   ("transactions", PyVal.list [])]

/-- `exBlock` with its `baseFeePerGas` bound to `None` (a JSON `null`). -/
def exBlockNullBaseFee : Dict :=
  ("baseFeePerGas", PyVal.none) :: exBlock.tail

/-- `exBlock` with its `baseFeePerGas` entry absent. -/
def exBlockNoBaseFee : Dict :=
  exBlock.tail

/-- A raw transaction whose required fields are present, whose `value` is
`null`, and whose optional hex fields are variously absent
(`gasPrice`, `blockNumber`, `transactionIndex`, `yParity`), `null`
(`maxFeePerGas`, `chainId`) or present (`maxPriorityFeePerGas`). -/
def exTx : Dict :=
  [("from", PyVal.str "0xsender"), ("gas", PyVal.str "0x5208"), ("hash", PyVal.str "0xh"),
   ("input", PyVal.str "0x"), ("nonce", PyVal.str "0x1"), ("r", PyVal.str "0xr"),
   ("s", PyVal.str "0xs"), ("type", PyVal.str "0x2"), ("v", PyVal.str "0x0"),
   ("value", PyVal.none), ("maxFeePerGas", PyVal.none), ("chainId", PyVal.none),
   ("maxPriorityFeePerGas", PyVal.str "0x3b9aca00")]

/-- Fetch always succeeds with `exBlock`; size estimates never reach the
flush threshold. -/
def exParamsQuiet : ParamsL where
  blockOf := fun _ => Option.some exBlock
  gsB := fun _ => 0
  gsT := fun _ => 0

/-- Cloud-variant counterpart of `exParamsQuiet`. -/
def exParamsLamQuiet : ParamsLam where
  blockOf := fun _ => Option.some exBlock
  gs := fun _ => 0

/-- Fetch always succeeds; the block-batch size estimate always reports the
threshold reached, so every block triggers a mid-run flush. -/
def exParamsFlushB : ParamsL where
  blockOf := fun _ => Option.some exBlock
  gsB := fun _ => MAX_SIZE_BYTES
  gsT := fun _ => 0

/-- Cloud-variant params whose size estimate always reports the threshold
reached, so every block triggers a mid-run flush (write + checkpoint). -/
def exParamsLamFlush : ParamsLam where
  blockOf := fun _ => Option.some exBlock
  gs := fun _ => MAX_SIZE_BYTES_LAMBDA

/-- Fetch of block 4 returns a response without a `result` field; all other
fetches succeed. -/
def exParamsFailAt4 : ParamsL where
  blockOf := fun n => if n = 4 then Option.none else Option.some exBlock
  gsB := fun _ => 0
  gsT := fun _ => 0

/-- Cloud-variant counterpart of `exParamsFailAt4`. -/
def exParamsLamFailAt4 : ParamsLam where
  blockOf := fun n => if n = 4 then Option.none else Option.some exBlock
  gs := fun _ => 0

/-- Attempt sequence whose first underlying call raises an `HTTPError` with
status 429 and no reset header, and whose every later call would succeed. -/
def rateLimitedThenOk : Nat → AttemptResult :=
  fun i => if i = 0 then AttemptResult.raiseHTTP 429 Option.none else AttemptResult.success exBlock

/-- A field of a raw record that is absent or bound to `None`. -/
def absentOrNull (tx : Dict) (k : String) : Prop :=
  dget tx k = Option.none ∨ dget tx k = Option.some PyVal.none

/-- A well-formed optional hex field: absent, `null`, or a parseable hex
string. -/
def OptHexField (tx : Dict) (k : String) : Prop :=
  absentOrNull tx k ∨
    ∃ s n, dget tx k = Option.some (PyVal.str s) ∧ pyIntBase16 s = Option.some n

/-- The normalized form of `exBlock` (used to instantiate hypotheses of the
shape `convert_block_data d = Except.ok r` at a concrete input). -/
def exBlockConv : PyVal :=
  match convert_block_data exBlock with
  | Except.ok v => v
  | _ => PyVal.none

/-! ### Helper lemmas on traces -/

theorem traceFetches_append (t1 t2 : List Event) :
    traceFetches (t1 ++ t2) = traceFetches t1 ++ traceFetches t2 := by
  induction t1 with
  | nil => rfl
  | cons e t ih => cases e <;> simp [traceFetches, ih]

theorem tracePaths_append (t1 t2 : List Event) :
    tracePaths (t1 ++ t2) = tracePaths t1 ++ tracePaths t2 := by
  induction t1 with
  | nil => rfl
  | cons e t ih => cases e <;> simp [tracePaths, ih]

theorem traceSaves_append (t1 t2 : List Event) :
    traceSaves (t1 ++ t2) = traceSaves t1 ++ traceSaves t2 := by
  induction t1 with
  | nil => rfl
  | cons e t ih => cases e <;> simp [traceSaves, ih]

theorem flatCovers_append (t1 t2 : List Event) :
    flatCovers (t1 ++ t2) = flatCovers t1 ++ flatCovers t2 := by
  induction t1 with
  | nil => rfl
  | cons e t ih => cases e <;> simp [flatCovers, coversOf, ih]

/-! ### C6 - rate-limit retry protocol -/

/-- C6.  The claim says a rate-limited block fetch sleeps (until the reset
hint, or 60 seconds) and retries unboundedly until success.  In the code
this can never happen: `app.py` never imports `HTTPError` (nor `time`), so
evaluating the clause `except HTTPError` itself raises `NameError` and the
error surfaces at once.  Concretely: with a 429 on the first attempt and
guaranteed success on any retry, the wrapper still returns `NameError`
instead of ever retrying. -/
theorem c6_rate_limit_retry_is_dead_code :
    fetch_block_data_with_rate_limit_retry rateLimitedThenOk = Except.error PyErr.nameError :=
  rfl

/-! ### C10 - the two variants append different per-block records -/

/-- Observer distinguishing the two per-block records: the `number` field of
a dict value. -/
def numField (v : PyVal) : PyVal :=
  match v with
  | PyVal.dict d => pyGet d "number"
  | _ => PyVal.none

/-- C10.  For the raw block `exBlock`, the record the local-script loop
appends (`convert_block_data` output minus `transactions`) differs from the
record the cloud-function loop appends (the raw dict unchanged): the local
record carries `number` as the integer 2, the raw record as the hex string
"0x2".  The two deployment variants are not per-block output-equivalent. -/
theorem c10_variants_not_equivalent :
    local_block_record exBlock ≠ Except.ok (lambda_block_record exBlock) := by
  intro h
  have h2 : (local_block_record exBlock).map numField =
      ((Except.ok (lambda_block_record exBlock) : Except PyErr PyVal)).map numField := by rw [h]
  have e1 : (local_block_record exBlock).map numField = Except.ok (PyVal.int 2) := rfl
  have e2 : ((Except.ok (lambda_block_record exBlock) : Except PyErr PyVal)).map numField =
      Except.ok (PyVal.str "0x2") := rfl
  rw [e1, e2] at h2
  injection h2 with h3
  exact PyVal.noConfusion h3

/-! ### C2 - null handling in normalization -/

/-- C2 counterexample.  The claim says normalization maps an absent hex
field to null instead of raising, and that a derived scaled field is null
whenever its source is null, normalization succeeding.  For raw blocks both
parts fail: with `baseFeePerGas` absent `convert_block_data` raises
`KeyError`, and with `baseFeePerGas` bound to null it raises `TypeError`
(the `baseFeePerGas_gwei` entry divides `None` by `1e9` with no guard). -/
theorem c2_counterexample :
    convert_block_data exBlockNoBaseFee = Except.error PyErr.keyError ∧
    convert_block_data exBlockNullBaseFee = Except.error PyErr.typeError :=
  ⟨rfl, rfl⟩

/-! ### C9 - hex round trip -/

/-- C9 counterexample.  "0xFF" is a valid `0x`-prefixed hexadecimal string
(`int("0xFF", 16)` accepts it), but the round trip through `hex()` yields
"0xff", which differs from "0xFF" by letter case, not merely by leading
zeros: their leading-zero-normalized digit lists disagree. -/
theorem c9_counterexample :
    (pyIntBase16 "0xFF").map pyHex = Option.some "0xff" ∧
    hexCanon "0xff" ≠ hexCanon "0xFF" := by
  constructor
  · rfl
  · decide

/-! ### C1 - scenario: checkpoint 998, latest 1000 -/

/-- C1 counterexample.  The claim says a run with checkpoint 998 and latest
1000 (flush threshold never crossed) produces one artifact containing the
THREE blocks 998, 999, 1000.  In the code the start block is
`checkpoint + 1 = 999` (block 998 was already processed in a prior run), so
the run fetches only 999 and 1000 and the single artifact covers exactly
those two blocks - 998 is not in it. -/
theorem c1_counterexample :
    traceFetches (main_local exParamsQuiet (Option.some 998) 1000 "2024_01_01__00_00_00").trace
      = [999, 1000] ∧
    tracePaths (main_local exParamsQuiet (Option.some 998) 1000 "2024_01_01__00_00_00").trace
      = ["./output/2024_01_01__00_00_00/blocks_1.json"] ∧
    flatCovers (main_local exParamsQuiet (Option.some 998) 1000 "2024_01_01__00_00_00").trace
      = [999, 1000] ∧
    998 ∉ flatCovers (main_local exParamsQuiet (Option.some 998) 1000 "2024_01_01__00_00_00").trace ∧
    (main_local exParamsQuiet (Option.some 998) 1000 "2024_01_01__00_00_00").store
      = Option.some 1000 := by
  have hcov : flatCovers
      (main_local exParamsQuiet (Option.some 998) 1000 "2024_01_01__00_00_00").trace
      = [999, 1000] := rfl
  refine ⟨rfl, rfl, hcov, ?_, rfl⟩
  rw [hcov]
  decide

/-- C1 amended.  With checkpoint 998, latest 1000, successful fetches and
conversions, empty transaction lists and the flush threshold never crossed,
each variant performs exactly: fetch 999, fetch 1000, one artifact write
containing the records of blocks 999 and 1000 in ascending order, and a
checkpoint save of 1000; the persisted checkpoint is 1000 and no error
occurs. -/
theorem c1_scenario_two_blocks (PL : ParamsL) (PLam : ParamsLam) (ts : String)
    (d1 d2 : Dict) (r1 r2 : PyVal)
    (hb1 : PL.blockOf 999 = Option.some d1) (hb2 : PL.blockOf 1000 = Option.some d2)
    (hc1 : convert_block_data d1 = Except.ok r1) (hc2 : convert_block_data d2 = Except.ok r2)
    (ht1 : pyIndexV r1 "transactions" = Except.ok (PyVal.list []))
    (ht2 : pyIndexV r2 "transactions" = Except.ok (PyVal.list []))
    (hszB : ∀ l, PL.gsB l < MAX_SIZE_BYTES) (hszT : ∀ l, PL.gsT l < MAX_SIZE_BYTES)
    (hlb1 : PLam.blockOf 999 = Option.some d1) (hlb2 : PLam.blockOf 1000 = Option.some d2)
    (hlsz : ∀ l, PLam.gs l < MAX_SIZE_BYTES_LAMBDA) :
    main_local PL (Option.some 998) 1000 ts =
      { store := Option.some 1000,
        trace := [Event.fetch 999, Event.fetch 1000,
          Event.write ("./output/" ++ ts ++ "/blocks_" ++ Nat.repr 1 ++ ".json")
            [dictRemoveV r1 "transactions", dictRemoveV r2 "transactions"] [999, 1000],
          Event.saveCp 1000],
        err := Option.none } ∧
    lambda_handler PLam (Option.some 998) 1000 ts =
      { store := Option.some 1000,
        trace := [Event.fetch 999, Event.fetch 1000,
          Event.write (lambdaName ts 1) [lambda_block_record d1, lambda_block_record d2]
            [999, 1000],
          Event.saveCp 1000],
        err := Option.none } := by
  have hB : ∀ l, ¬ (MAX_SIZE_BYTES ≤ PL.gsB l) := fun l => Nat.not_le.mpr (hszB l)
  have hT : ∀ l, ¬ (MAX_SIZE_BYTES ≤ PL.gsT l) := fun l => Nat.not_le.mpr (hszT l)
  have hL : ∀ l, ¬ (MAX_SIZE_BYTES_LAMBDA ≤ PLam.gs l) := fun l => Nat.not_le.mpr (hlsz l)
  have hr : blockRange 999 1000 = [999, 1000] := rfl
  constructor
  · simp [main_local, startBlock, initTrace, hr, runL, stepL, hb1, hb2, hc1, hc2, ht1, ht2,
      hB, hT]
  · simp [lambda_handler, startBlock, hr, runLam, stepLam, hlb1, hlb2, hL]

/-- Witness for `c1_scenario_two_blocks` at the concrete run of
`exParamsQuiet` / `exParamsLamQuiet`. -/
theorem c1_scenario_two_blocks_witness :
    main_local exParamsQuiet (Option.some 998) 1000 "TS" =
      { store := Option.some 1000,
        trace := [Event.fetch 999, Event.fetch 1000,
          Event.write ("./output/" ++ "TS" ++ "/blocks_" ++ Nat.repr 1 ++ ".json")
            [dictRemoveV exBlockConv "transactions", dictRemoveV exBlockConv "transactions"]
            [999, 1000],
          Event.saveCp 1000],
        err := Option.none } ∧
    lambda_handler exParamsLamQuiet (Option.some 998) 1000 "TS" =
      { store := Option.some 1000,
        trace := [Event.fetch 999, Event.fetch 1000,
          Event.write (lambdaName "TS" 1) [lambda_block_record exBlock, lambda_block_record exBlock]
            [999, 1000],
          Event.saveCp 1000],
        err := Option.none } :=
  c1_scenario_two_blocks exParamsQuiet exParamsLamQuiet "TS" exBlock exBlock
    exBlockConv exBlockConv rfl rfl rfl rfl rfl rfl
    (fun _ => (by decide : (0 : Nat) < MAX_SIZE_BYTES))
    (fun _ => (by decide : (0 : Nat) < MAX_SIZE_BYTES)) rfl rfl
    (fun _ => (by decide : (0 : Nat) < MAX_SIZE_BYTES_LAMBDA))

/-! ### C4 - absent or zero checkpoint: process only the latest block -/

/-- C4.  When the loaded checkpoint is absent or 0 and the fetch of the
latest block succeeds, each variant fetches exactly the one block `latest`
(no backfill of earlier blocks), finishes without error, and persists the
checkpoint `latest`. -/
theorem c4_no_checkpoint_latest_only (PL : ParamsL) (PLam : ParamsLam) (latest : Nat)
    (ts : String) (store0 : Option Nat) (hs : store0 = Option.none ∨ store0 = Option.some 0)
    (d : Dict) (r : PyVal)
    (hb : PL.blockOf latest = Option.some d)
    (hc : convert_block_data d = Except.ok r)
    (ht : pyIndexV r "transactions" = Except.ok (PyVal.list []))
    (hlb : PLam.blockOf latest = Option.some d) :
    traceFetches (main_local PL store0 latest ts).trace = [latest] ∧
    (main_local PL store0 latest ts).store = Option.some latest ∧
    (main_local PL store0 latest ts).err = Option.none ∧
    traceFetches (lambda_handler PLam store0 latest ts).trace = [latest] ∧
    (lambda_handler PLam store0 latest ts).store = Option.some latest ∧
    (lambda_handler PLam store0 latest ts).err = Option.none := by
  have hr : blockRange latest latest = [latest] := by
    simp [blockRange, List.range']
  rcases hs with h | h <;> subst h <;>
    by_cases hB : MAX_SIZE_BYTES ≤ PL.gsB [dictRemoveV r "transactions"] <;>
    by_cases hT : MAX_SIZE_BYTES ≤ PL.gsT [] <;>
    by_cases hL : MAX_SIZE_BYTES_LAMBDA ≤ PLam.gs [lambda_block_record d] <;>
    simp [main_local, lambda_handler, startBlock, initTrace, hr, runL, runLam, stepL, stepLam,
      hb, hc, ht, hlb, hB, hT, hL, traceFetches_append, traceFetches]

/-- Witness for `c4_no_checkpoint_latest_only` with an absent checkpoint and
latest block 5. -/
theorem c4_no_checkpoint_latest_only_witness :
    traceFetches (main_local exParamsQuiet Option.none 5 "TS").trace = [5] ∧
    (main_local exParamsQuiet Option.none 5 "TS").store = Option.some 5 ∧
    (main_local exParamsQuiet Option.none 5 "TS").err = Option.none ∧
    traceFetches (lambda_handler exParamsLamQuiet Option.none 5 "TS").trace = [5] ∧
    (lambda_handler exParamsLamQuiet Option.none 5 "TS").store = Option.some 5 ∧
    (lambda_handler exParamsLamQuiet Option.none 5 "TS").err = Option.none :=
  c4_no_checkpoint_latest_only exParamsQuiet exParamsLamQuiet 5 "TS" Option.none
    (Or.inl rfl) exBlock exBlockConv rfl rfl rfl rfl

/-! ### C5 - checkpoint equals latest: empty range -/

/-- C5.  When the loaded checkpoint equals the fetched latest block number
(a nonzero value, so the range `[checkpoint + 1, latest]` is empty), each
variant fetches no block, writes no artifact, finishes without error, and
the only trace event is the re-save of the unchanged checkpoint value
`latest`, so the stored checkpoint after the run equals its value before. -/
theorem c5_equal_checkpoint_noop (PL : ParamsL) (PLam : ParamsLam) (latest : Nat)
    (ts : String) (h1 : 1 ≤ latest) :
    main_local PL (Option.some latest) latest ts =
      { store := Option.some latest, trace := [Event.saveCp latest], err := Option.none } ∧
    lambda_handler PLam (Option.some latest) latest ts =
      { store := Option.some latest, trace := [Event.saveCp latest], err := Option.none } := by
  have hne : ¬ (latest = 0) := by omega
  have hr : blockRange (latest + 1) latest = [] := by
    simp [blockRange]
  constructor
  · simp only [main_local, startBlock, initTrace, Option.getD, hne, if_false, hr, runL,
      List.isEmpty_nil, if_true, List.nil_append, List.append_nil]
  · simp only [lambda_handler, startBlock, Option.getD, hne, if_false, hr, runLam,
      List.isEmpty_nil, if_true, List.nil_append, List.append_nil]

/-- Witness for `c5_equal_checkpoint_noop` at checkpoint = latest = 1000. -/
theorem c5_equal_checkpoint_noop_witness :
    main_local exParamsQuiet (Option.some 1000) 1000 "TS" =
      { store := Option.some 1000, trace := [Event.saveCp 1000], err := Option.none } ∧
    lambda_handler exParamsLamQuiet (Option.some 1000) 1000 "TS" =
      { store := Option.some 1000, trace := [Event.saveCp 1000], err := Option.none } :=
  c5_equal_checkpoint_noop exParamsQuiet exParamsLamQuiet 1000 "TS" (by decide)

/-! ### C2 amended - transaction-side null handling -/

theorem pyIndex_of {d : Dict} {k : String} {v : PyVal} (h : dget d k = Option.some v) :
    pyIndex d k = Except.ok v := by
  simp [pyIndex, h]

theorem pyGet_absentOrNull {d : Dict} {k : String} (h : absentOrNull d k) :
    pyGet d k = PyVal.none := by
  rcases h with h | h <;> simp [pyGet, h]

theorem safe_hex_str {s : String} {n : Int} (h : pyIntBase16 s = Option.some n) :
    safe_hex_to_int (PyVal.str s) = Except.ok (PyVal.int n) := by
  simp [safe_hex_to_int, h]

theorem safe_hex_none : safe_hex_to_int PyVal.none = Except.ok PyVal.none := rfl

/-- `safe_hex_to_int` on a well-formed optional field always succeeds, and
yields `None` when the field is absent or null. -/
theorem safe_hex_of_optField {tx : Dict} {k : String} (h : OptHexField tx k) :
    ∃ w, safe_hex_to_int (pyGet tx k) = Except.ok w ∧
      (absentOrNull tx k → w = PyVal.none) := by
  rcases h with h | ⟨s, n, hs, hn⟩
  · exact ⟨PyVal.none, by rw [pyGet_absentOrNull h]; rfl, fun _ => rfl⟩
  · refine ⟨PyVal.int n, ?_, ?_⟩
    · rw [show pyGet tx k = PyVal.str s by simp [pyGet, hs]]
      exact safe_hex_str hn
    · intro habs
      rcases habs with habs | habs <;> rw [habs] at hs <;> simp at hs

/-- The derived `_gwei` entry on a well-formed optional field always
succeeds, and is `None` when the field is absent or null. -/
theorem scaledOpt_of_optField {tx : Dict} {k : String} (sc : Rat) (h : OptHexField tx k) :
    ∃ g, scaledOpt tx k sc = Except.ok g ∧
      (absentOrNull tx k → g = PyVal.none) := by
  rcases h with h | ⟨s, n, hs, hn⟩
  · refine ⟨PyVal.none, ?_, fun _ => rfl⟩
    rw [scaledOpt, pyGet_absentOrNull h]
    simp [pyTruthy]
  · have hg : pyGet tx k = PyVal.str s := by simp [pyGet, hs]
    by_cases he : s.isEmpty
    · refine ⟨PyVal.none, ?_, ?_⟩
      · rw [scaledOpt, hg]
        simp [pyTruthy, he]
      · intro habs
        rcases habs with habs | habs <;> rw [habs] at hs <;> simp at hs
    · refine ⟨PyVal.rat ((n : Rat) / sc), ?_, ?_⟩
      · rw [scaledOpt, hg]
        simp only [pyTruthy, he, Bool.not_false, if_true]
        rw [safe_hex_str hn]
        rfl
      · intro habs
        rcases habs with habs | habs <;> rw [habs] at hs <;> simp at hs

/-- C2 amended.  For every raw transaction whose required fields are present
(`from`, `gas`, `hash`, `input`, `nonce`, `r`, `s`, `type`, `v`, `value` -
the fields the source reads with `tx[...]`) and whose optional hex fields
are well formed, `convert_transaction` succeeds, maps each absent or null
optional hex field to null, and each derived gwei- or eth-scaled field is null
whenever its source field is absent or null.  (The raw-block side of the
original claim is refuted by `c2_counterexample`.) -/
theorem c2_transaction_null_handling (tx : Dict)
    (vfrom vhash vinput vrr vss : PyVal)
    (sgas snonce stype svv : String) (ngas nnonce ntype nvv : Int)
    (hfrom : dget tx "from" = Option.some vfrom)
    (hgas : dget tx "gas" = Option.some (PyVal.str sgas))
    (hgasn : pyIntBase16 sgas = Option.some ngas)
    (hhash : dget tx "hash" = Option.some vhash)
    (hinput : dget tx "input" = Option.some vinput)
    (hnonce : dget tx "nonce" = Option.some (PyVal.str snonce))
    (hnoncen : pyIntBase16 snonce = Option.some nnonce)
    (hrr : dget tx "r" = Option.some vrr)
    (hss : dget tx "s" = Option.some vss)
    (htype : dget tx "type" = Option.some (PyVal.str stype))
    (htypen : pyIntBase16 stype = Option.some ntype)
    (hvv : dget tx "v" = Option.some (PyVal.str svv))
    (hvvn : pyIntBase16 svv = Option.some nvv)
    (hval : dget tx "value" = Option.some PyVal.none ∨
      ∃ s n, dget tx "value" = Option.some (PyVal.str s) ∧ pyIntBase16 s = Option.some n)
    (hBN : OptHexField tx "blockNumber") (hCI : OptHexField tx "chainId")
    (hGP : OptHexField tx "gasPrice") (hMF : OptHexField tx "maxFeePerGas")
    (hMP : OptHexField tx "maxPriorityFeePerGas") (hTI : OptHexField tx "transactionIndex")
    (hYP : OptHexField tx "yParity") :
    ∃ out, convert_transaction tx = Except.ok (PyVal.dict out) ∧
      (absentOrNull tx "blockNumber" → dget out "blockNumber" = Option.some PyVal.none) ∧
      (absentOrNull tx "chainId" → dget out "chainId" = Option.some PyVal.none) ∧
      (absentOrNull tx "gasPrice" → dget out "gasPrice" = Option.some PyVal.none ∧
        dget out "gasPrice_gwei" = Option.some PyVal.none) ∧
      (absentOrNull tx "maxFeePerGas" → dget out "maxFeePerGas" = Option.some PyVal.none ∧
        dget out "maxFeePerGas_gwei" = Option.some PyVal.none) ∧
      (absentOrNull tx "maxPriorityFeePerGas" →
        dget out "maxPriorityFeePerGas" = Option.some PyVal.none ∧
        dget out "maxPriorityFeePerGas_gwei" = Option.some PyVal.none) ∧
      (absentOrNull tx "transactionIndex" →
        dget out "transactionIndex" = Option.some PyVal.none) ∧
      (absentOrNull tx "yParity" → dget out "yParity" = Option.some PyVal.none) ∧
      (dget tx "value" = Option.some PyVal.none →
        dget out "value" = Option.some PyVal.none ∧
        dget out "value_eth" = Option.some PyVal.none) := by
  obtain ⟨wBN, eBN, nBN⟩ := safe_hex_of_optField hBN
  obtain ⟨wCI, eCI, nCI⟩ := safe_hex_of_optField hCI
  obtain ⟨wGP, eGP, nGP⟩ := safe_hex_of_optField hGP
  obtain ⟨gGP, egGP, ngGP⟩ := scaledOpt_of_optField gweiScale hGP
  obtain ⟨wMF, eMF, nMF⟩ := safe_hex_of_optField hMF
  obtain ⟨gMF, egMF, ngMF⟩ := scaledOpt_of_optField gweiScale hMF
  obtain ⟨wMP, eMP, nMP⟩ := safe_hex_of_optField hMP
  obtain ⟨gMP, egMP, ngMP⟩ := scaledOpt_of_optField gweiScale hMP
  obtain ⟨wTI, eTI, nTI⟩ := safe_hex_of_optField hTI
  obtain ⟨wYP, eYP, nYP⟩ := safe_hex_of_optField hYP
  rcases hval with hvn | ⟨sVal, nVal, hv1, hv2⟩
  · have hconv : convert_transaction tx = Except.ok (PyVal.dict
        [("accessList", pyGetD tx "accessList" (PyVal.list [])),
         ("blockHash", pyGet tx "blockHash"),
         ("blockNumber", wBN), ("chainId", wCI), ("from", vfrom),
         ("gas", PyVal.int ngas), ("gasPrice", wGP), ("gasPrice_gwei", gGP),
         ("hash", vhash), ("input", vinput),
         ("maxFeePerGas", wMF), ("maxFeePerGas_gwei", gMF),
         ("maxPriorityFeePerGas", wMP), ("maxPriorityFeePerGas_gwei", gMP),
         ("nonce", PyVal.int nnonce), ("r", vrr), ("s", vss), ("to", pyGet tx "to"),
         ("transactionIndex", wTI), ("type", PyVal.int ntype), ("v", PyVal.int nvv),
         ("value", PyVal.none), ("value_eth", PyVal.none), ("yParity", wYP)]) := by
      simp only [convert_transaction, eBN, eCI, eGP, egGP, eMF, egMF, eMP, egMP, eTI, eYP,
        pyIndex_of hfrom, pyIndex_of hgas, pyIndex_of hhash, pyIndex_of hinput,
        pyIndex_of hnonce, pyIndex_of hrr, pyIndex_of hss, pyIndex_of htype,
        pyIndex_of hvv, pyIndex_of hvn,
        safe_hex_str hgasn, safe_hex_str hnoncen, safe_hex_str htypen, safe_hex_str hvvn,
        safe_hex_none, Except.bind]
    refine ⟨_, hconv, ?_, ?_, ?_, ?_, ?_, ?_, ?_, ?_⟩
    · intro h; rw [nBN h]; rfl
    · intro h; rw [nCI h]; rfl
    · intro h; rw [nGP h, ngGP h]; exact ⟨rfl, rfl⟩
    · intro h; rw [nMF h, ngMF h]; exact ⟨rfl, rfl⟩
    · intro h; rw [nMP h, ngMP h]; exact ⟨rfl, rfl⟩
    · intro h; rw [nTI h]; rfl
    · intro h; rw [nYP h]; rfl
    · intro _; exact ⟨rfl, rfl⟩
  · have hconv : convert_transaction tx = Except.ok (PyVal.dict
        [("accessList", pyGetD tx "accessList" (PyVal.list [])),
         ("blockHash", pyGet tx "blockHash"),
         ("blockNumber", wBN), ("chainId", wCI), ("from", vfrom),
         ("gas", PyVal.int ngas), ("gasPrice", wGP), ("gasPrice_gwei", gGP),
         ("hash", vhash), ("input", vinput),
         ("maxFeePerGas", wMF), ("maxFeePerGas_gwei", gMF),
         ("maxPriorityFeePerGas", wMP), ("maxPriorityFeePerGas_gwei", gMP),
         ("nonce", PyVal.int nnonce), ("r", vrr), ("s", vss), ("to", pyGet tx "to"),
         ("transactionIndex", wTI), ("type", PyVal.int ntype), ("v", PyVal.int nvv),
         ("value", PyVal.int nVal),
         ("value_eth", PyVal.rat ((nVal : Rat) / ethScale)), ("yParity", wYP)]) := by
      simp only [convert_transaction, eBN, eCI, eGP, egGP, eMF, egMF, eMP, egMP, eTI, eYP,
        pyIndex_of hfrom, pyIndex_of hgas, pyIndex_of hhash, pyIndex_of hinput,
        pyIndex_of hnonce, pyIndex_of hrr, pyIndex_of hss, pyIndex_of htype,
        pyIndex_of hvv, pyIndex_of hv1,
        safe_hex_str hgasn, safe_hex_str hnoncen, safe_hex_str htypen, safe_hex_str hvvn,
        safe_hex_str hv2, Except.bind, pyDiv]
    refine ⟨_, hconv, ?_, ?_, ?_, ?_, ?_, ?_, ?_, ?_⟩
    · intro h; rw [nBN h]; rfl
    · intro h; rw [nCI h]; rfl
    · intro h; rw [nGP h, ngGP h]; exact ⟨rfl, rfl⟩
    · intro h; rw [nMF h, ngMF h]; exact ⟨rfl, rfl⟩
    · intro h; rw [nMP h, ngMP h]; exact ⟨rfl, rfl⟩
    · intro h; rw [nTI h]; rfl
    · intro h; rw [nYP h]; rfl
    · intro h; rw [h] at hv1; simp at hv1

/-- Witness for `c2_transaction_null_handling` at `exTx` (value null,
gasPrice/blockNumber/transactionIndex/yParity absent, maxFeePerGas/chainId
null, maxPriorityFeePerGas present). -/
theorem c2_transaction_null_handling_witness :
    ∃ out, convert_transaction exTx = Except.ok (PyVal.dict out) ∧
      (absentOrNull exTx "blockNumber" → dget out "blockNumber" = Option.some PyVal.none) ∧
      (absentOrNull exTx "chainId" → dget out "chainId" = Option.some PyVal.none) ∧
      (absentOrNull exTx "gasPrice" → dget out "gasPrice" = Option.some PyVal.none ∧
        dget out "gasPrice_gwei" = Option.some PyVal.none) ∧
      (absentOrNull exTx "maxFeePerGas" → dget out "maxFeePerGas" = Option.some PyVal.none ∧
        dget out "maxFeePerGas_gwei" = Option.some PyVal.none) ∧
      (absentOrNull exTx "maxPriorityFeePerGas" →
        dget out "maxPriorityFeePerGas" = Option.some PyVal.none ∧
        dget out "maxPriorityFeePerGas_gwei" = Option.some PyVal.none) ∧
      (absentOrNull exTx "transactionIndex" →
        dget out "transactionIndex" = Option.some PyVal.none) ∧
      (absentOrNull exTx "yParity" → dget out "yParity" = Option.some PyVal.none) ∧
      (dget exTx "value" = Option.some PyVal.none →
        dget out "value" = Option.some PyVal.none ∧
        dget out "value_eth" = Option.some PyVal.none) :=
  c2_transaction_null_handling exTx
    (PyVal.str "0xsender") (PyVal.str "0xh") (PyVal.str "0x") (PyVal.str "0xr") (PyVal.str "0xs")
    "0x5208" "0x1" "0x2" "0x0" 21000 1 2 0
    rfl rfl rfl rfl rfl rfl rfl rfl rfl rfl rfl rfl rfl
    (Or.inl rfl)
    (Or.inl (Or.inl rfl)) (Or.inl (Or.inr rfl)) (Or.inl (Or.inl rfl)) (Or.inl (Or.inr rfl))
    (Or.inr ⟨"0x3b9aca00", 1000000000, rfl, rfl⟩)
    (Or.inl (Or.inl rfl)) (Or.inl (Or.inl rfl))

/-! ### C8 - artifact naming -/

/-- C8 counterexample.  The claim says every artifact name includes the run
start timestamp plus a per-run sequence number, so names never collide
across runs.  In the local script a mid-run (threshold-triggered) flush
writes to `blocks_<index>.json` with no timestamp and no output directory:
two runs with different start timestamps write the very same path
`blocks_1.json`, a collision. -/
theorem c8_counterexample :
    tracePaths (main_local exParamsFlushB (Option.some 1) 2 "2024_01_01__00_00_00").trace
      = ["blocks_1.json"] ∧
    tracePaths (main_local exParamsFlushB (Option.some 1) 2 "2025_06_30__12_00_00").trace
      = ["blocks_1.json"] ∧
    ("2024_01_01__00_00_00" : String) ≠ "2025_06_30__12_00_00" :=
  ⟨rfl, rfl, by decide⟩

/-- Loop invariant of `lambda_handler`: the artifact paths written so far
are exactly `lambdaName ts 1, ..., lambdaName ts (bIdx - 1)`, in order. -/
theorem runLam_paths_inv (P : ParamsLam) (ts : String) :
    ∀ (l : List Nat) (st : StLam), 1 ≤ st.bIdx →
      tracePaths st.trace = (List.range' 1 (st.bIdx - 1)).map (lambdaName ts) →
      1 ≤ (runLam P ts l st).1.bIdx ∧
      tracePaths (runLam P ts l st).1.trace =
        (List.range' 1 ((runLam P ts l st).1.bIdx - 1)).map (lambdaName ts) := by
  intro l
  induction l with
  | nil => intro st h1 h2; exact ⟨h1, h2⟩
  | cons n ns ih =>
    intro st h1 h2
    rcases hb : P.blockOf n with _ | bd
    · simp only [runLam, stepLam, hb]
      exact ⟨h1, by simpa [tracePaths_append, tracePaths] using h2⟩
    · by_cases hsz : MAX_SIZE_BYTES_LAMBDA ≤ P.gs (st.blocksData ++ [lambda_block_record bd])
      · simp only [runLam, stepLam, hb, if_pos hsz]
        apply ih
        · simp
        · have hb1 : st.bIdx = (st.bIdx - 1) + 1 := by omega
          have hval : 1 + 1 * (st.bIdx - 1) = st.bIdx := by omega
          simp only [tracePaths_append, tracePaths, h2, Nat.add_sub_cancel, List.append_nil]
          conv_rhs => rw [hb1, List.range'_concat, hval]
          rw [List.map_append]
          rfl
      · simp only [runLam, stepLam, hb, if_neg hsz]
        apply ih
        · exact h1
        · simpa [tracePaths_append, tracePaths] using h2

/-- C8 amended.  In the cloud-function variant, every run's artifact paths
are exactly `lambdaName ts 1, ..., lambdaName ts k` for some `k`: each name
contains the run's start timestamp together with a per-run sequence number
increasing consecutively from 1 (so names cannot collide across runs with
distinct timestamps).  The local variant satisfies this only for
finalization artifacts; its mid-run flush names omit the timestamp and can
collide across runs (`c8_counterexample`). -/
theorem c8_lambda_artifact_names (P : ParamsLam) (store0 : Option Nat) (latest : Nat)
    (ts : String) :
    ∃ k, tracePaths (lambda_handler P store0 latest ts).trace =
      (List.range' 1 k).map (lambdaName ts) := by
  have base := runLam_paths_inv P ts (blockRange (startBlock store0 latest) latest)
    { blocksData := [], bNums := [], bIdx := 1, store := store0, trace := [] }
    (by simp) (by simp [tracePaths, List.range'])
  rcases hres : runLam P ts (blockRange (startBlock store0 latest) latest)
    { blocksData := [], bNums := [], bIdx := 1, store := store0, trace := [] } with ⟨st, err⟩
  rw [hres] at base
  obtain ⟨hb1, hpaths⟩ := base
  have hb1x : 1 ≤ st.bIdx := hb1
  have hpathsx : tracePaths st.trace = (List.range' 1 (st.bIdx - 1)).map (lambdaName ts) :=
    hpaths
  rcases err with _ | e
  · by_cases hemp : st.blocksData.isEmpty
    · refine ⟨st.bIdx - 1, ?_⟩
      simp only [lambda_handler, hres, hemp, if_pos, tracePaths_append, tracePaths, hpathsx]
      simp
    · refine ⟨st.bIdx, ?_⟩
      have hb2 : st.bIdx = (st.bIdx - 1) + 1 := by omega
      have hval : 1 + 1 * (st.bIdx - 1) = st.bIdx := by omega
      simp only [lambda_handler, hres, hemp, if_neg, tracePaths_append, tracePaths, hpathsx,
        Bool.false_eq_true, not_false_iff]
      conv_rhs => rw [hb2, List.range'_concat, hval]
      rw [List.map_append]
      simp
  · exact ⟨st.bIdx - 1, by simp only [lambda_handler, hres]; exact hpathsx⟩

/-! ### C7 - protocol error: surfaced, no retry, checkpoint not advanced -/

/-- One local-variant iteration never persists a checkpoint. -/
theorem stepL_saves (P : ParamsL) (st : StL) (n : Nat) :
    traceSaves (stepL P st n).1.trace = traceSaves st.trace := by
  unfold stepL
  repeat' split
  all_goals simp [traceSaves_append, traceSaves]
  constructor <;> split <;> simp [traceSaves]

/-- The local-variant block loop never persists a checkpoint (the script
saves only after the loop). -/
theorem runL_saves (P : ParamsL) :
    ∀ (l : List Nat) (st : StL),
      traceSaves (runL P l st).1.trace = traceSaves st.trace := by
  intro l
  induction l with
  | nil => intro st; rfl
  | cons n ns ih =>
    intro st
    rcases hstep : stepL P st n with ⟨st1, e⟩
    have hs : traceSaves st1.trace = traceSaves st.trace := by
      have := stepL_saves P st n
      rw [hstep] at this
      exact this
    rcases e with _ | e
    · simp only [runL, hstep]
      rw [ih st1, hs]
    · simp only [runL, hstep]
      exact hs

/-- When every block below `N` fetches and converts fine and the fetch of
`N` returns a response without a `result` field, the local-variant loop
over any consecutive range containing `N` stops with `ValueError`. -/
theorem runL_fail (P : ParamsL) (d : Nat → Dict) (r : Nat → PyVal) (tl : Nat → List PyVal)
    (N : Nat)
    (hpre : ∀ b, b < N → P.blockOf b = Option.some (d b) ∧
      convert_block_data (d b) = Except.ok (r b) ∧
      pyIndexV (r b) "transactions" = Except.ok (PyVal.list (tl b)))
    (hN : P.blockOf N = Option.none) :
    ∀ (c s : Nat) (st : StL), s ≤ N → N < s + c →
      (runL P (List.range' s c) st).2 = Option.some PyErr.valueError := by
  intro c
  induction c with
  | zero => intro s st h1 h2; omega
  | succ c ih =>
    intro s st h1 h2
    rcases Nat.lt_or_ge s N with hlt | hge
    · obtain ⟨hb, hc, ht⟩ := hpre s hlt
      show (runL P (s :: List.range' (s + 1) c) st).2 = Option.some PyErr.valueError
      simp only [runL, stepL, hb, hc, ht]
      exact ih (s + 1) _ (by omega) (by omega)
    · have hsN : s = N := by omega
      subst hsN
      show (runL P (s :: List.range' (s + 1) c) st).2 = Option.some PyErr.valueError
      simp only [runL, stepL, hN]

/-- Cloud-variant counterpart of `runL_fail`: the loop stops with the
`NameError` produced by the retry wrapper's unbound `except HTTPError`
clause, every checkpoint value it persisted on the way is a flushed block
below `N`, and the store holds its initial value or such a flushed block. -/
theorem runLam_fail (P : ParamsLam) (ts : String) (d : Nat → Dict) (N : Nat)
    (store0 : Option Nat)
    (hpre : ∀ b, b < N → P.blockOf b = Option.some (d b))
    (hN : P.blockOf N = Option.none) :
    ∀ (c s : Nat) (st : StLam), s ≤ N → N < s + c →
      (∀ v ∈ traceSaves st.trace, v < N) →
      (st.store = store0 ∨ ∃ m, m < N ∧ st.store = Option.some m) →
      (runLam P ts (List.range' s c) st).2 = Option.some PyErr.nameError ∧
      (∀ v ∈ traceSaves (runLam P ts (List.range' s c) st).1.trace, v < N) ∧
      ((runLam P ts (List.range' s c) st).1.store = store0 ∨
        ∃ m, m < N ∧ (runLam P ts (List.range' s c) st).1.store = Option.some m) := by
  intro c
  induction c with
  | zero => intro s st h1 h2; omega
  | succ c ih =>
    intro s st h1 h2 hsv hst
    rcases Nat.lt_or_ge s N with hlt | hge
    · have hb := hpre s hlt
      show ((runLam P ts (s :: List.range' (s + 1) c) st).2 = _) ∧ _
      by_cases hsz : MAX_SIZE_BYTES_LAMBDA ≤ P.gs (st.blocksData ++ [lambda_block_record (d s)])
      · simp only [runLam, stepLam, hb, if_pos hsz]
        apply ih (s + 1) _ (by omega) (by omega)
        · intro v hv
          simp only [traceSaves_append, traceSaves, List.append_nil] at hv
          rcases List.mem_append.mp hv with hv | hv
          · exact hsv v hv
          · simp at hv
            omega
        · exact Or.inr ⟨s, hlt, rfl⟩
      · simp only [runLam, stepLam, hb, if_neg hsz]
        apply ih (s + 1) _ (by omega) (by omega)
        · intro v hv
          simp only [traceSaves_append, traceSaves, List.append_nil] at hv
          exact hsv v hv
        · exact hst
    · have hsN : s = N := by omega
      subst hsN
      show ((runLam P ts (s :: List.range' (s + 1) c) st).2 = _) ∧ _
      simp only [runLam, stepLam, hN]
      refine ⟨by trivial, ?_, hst⟩
      intro v hv
      simp only [traceSaves_append, traceSaves, List.append_nil] at hv
      exact hsv v hv

/-- C7.  For a run in which every block before `N` processes normally and
the fetch of block `N` (within the run's range) returns a response lacking
the `result` field: the local variant surfaces `ValueError` and the cloud
variant a terminal error (in fact `NameError`, since its handlers reference
the unbound name `HTTPError`), neither retries, both runs terminate with no
further writes, and the persisted checkpoint stays strictly below `N`: the
local store still holds the loaded value (`< N`), every checkpoint value
persisted during either run is `< N`, and the cloud store holds its initial
value or a flushed block number `< N`. -/
theorem c7_protocol_error_aborts (PL : ParamsL) (PLam : ParamsLam) (store0 : Option Nat)
    (latest N : Nat) (ts : String)
    (d : Nat → Dict) (r : Nat → PyVal) (tl : Nat → List PyVal)
    (hpre : ∀ b, b < N → PL.blockOf b = Option.some (d b) ∧
      convert_block_data (d b) = Except.ok (r b) ∧
      pyIndexV (r b) "transactions" = Except.ok (PyVal.list (tl b)))
    (hpreLam : ∀ b, b < N → PLam.blockOf b = Option.some (d b))
    (hN : PL.blockOf N = Option.none) (hNLam : PLam.blockOf N = Option.none)
    (hlat : 1 ≤ latest) (hNle : N ≤ latest)
    (hstart : startBlock store0 latest ≤ N) :
    (main_local PL store0 latest ts).err = Option.some PyErr.valueError ∧
    (main_local PL store0 latest ts).store = Option.some (store0.getD 0) ∧
    store0.getD 0 < N ∧
    (∀ v ∈ traceSaves (main_local PL store0 latest ts).trace, v < N) ∧
    (lambda_handler PLam store0 latest ts).err = Option.some PyErr.nameError ∧
    (∀ v ∈ traceSaves (lambda_handler PLam store0 latest ts).trace, v < N) ∧
    ((lambda_handler PLam store0 latest ts).store = store0 ∨
      ∃ m, m < N ∧ (lambda_handler PLam store0 latest ts).store = Option.some m) := by
  have hprevN : store0.getD 0 < N := by
    by_cases h0 : store0.getD 0 = 0
    · rw [h0]
      have : startBlock store0 latest = latest := by simp [startBlock, h0]
      omega
    · have : startBlock store0 latest = store0.getD 0 + 1 := by simp [startBlock, h0]
      omega
  have hcnt : N < startBlock store0 latest + (latest + 1 - startBlock store0 latest) := by
    have : startBlock store0 latest ≤ latest + 1 := by omega
    omega
  -- local variant
  have hfailL := runL_fail PL d r tl N hpre hN (latest + 1 - startBlock store0 latest)
    (startBlock store0 latest)
    { blocksData := [], txsData := [], bNums := [], bIdx := 1, tIdx := 1,
      trace := initTrace store0 } hstart hcnt
  have hsavesL := runL_saves PL (List.range' (startBlock store0 latest)
    (latest + 1 - startBlock store0 latest))
    { blocksData := [], txsData := [], bNums := [], bIdx := 1, tIdx := 1,
      trace := initTrace store0 }
  rcases hres : runL PL (blockRange (startBlock store0 latest) latest)
    { blocksData := [], txsData := [], bNums := [], bIdx := 1, tIdx := 1,
      trace := initTrace store0 } with ⟨stf, e⟩
  have hresx : runL PL (List.range' (startBlock store0 latest)
      (latest + 1 - startBlock store0 latest))
      { blocksData := [], txsData := [], bNums := [], bIdx := 1, tIdx := 1,
        trace := initTrace store0 } = (stf, e) := hres
  rw [hresx] at hfailL hsavesL
  have he : e = Option.some PyErr.valueError := hfailL
  subst he
  -- lambda variant
  have hfailLam := runLam_fail PLam ts d N store0 hpreLam hNLam
    (latest + 1 - startBlock store0 latest) (startBlock store0 latest)
    { blocksData := [], bNums := [], bIdx := 1, store := store0, trace := [] }
    hstart hcnt (by intro v hv; simp [traceSaves] at hv) (Or.inl rfl)
  rcases hresLam : runLam PLam ts (blockRange (startBlock store0 latest) latest)
    { blocksData := [], bNums := [], bIdx := 1, store := store0, trace := [] } with ⟨stg, e2⟩
  have hresLamx : runLam PLam ts (List.range' (startBlock store0 latest)
      (latest + 1 - startBlock store0 latest))
      { blocksData := [], bNums := [], bIdx := 1, store := store0, trace := [] }
      = (stg, e2) := hresLam
  rw [hresLamx] at hfailLam
  obtain ⟨he2, hsv2, hst2⟩ := hfailLam
  have he2x : e2 = Option.some PyErr.nameError := he2
  subst he2x
  refine ⟨?_, ?_, hprevN, ?_, ?_, ?_, ?_⟩
  · simp only [main_local, hres]
  · simp only [main_local, hres]
  · simp only [main_local, hres]
    intro v hv
    have : traceSaves stf.trace = traceSaves (initTrace store0) := hsavesL
    rw [this] at hv
    rcases store0 with _ | c
    · simp [initTrace, traceSaves] at hv
      omega
    · simp [initTrace, traceSaves] at hv
  · simp only [lambda_handler, hresLam]
  · simp only [lambda_handler, hresLam]
    exact hsv2
  · simp only [lambda_handler, hresLam]
    exact hst2

/-- Witness for `c7_protocol_error_aborts`: checkpoint 2, latest 6, fetch of
block 4 lacking the `result` field. -/
theorem c7_protocol_error_aborts_witness :
    (main_local exParamsFailAt4 (Option.some 2) 6 "TS").err = Option.some PyErr.valueError ∧
    (main_local exParamsFailAt4 (Option.some 2) 6 "TS").store
      = Option.some ((Option.some 2).getD 0) ∧
    (Option.some 2).getD 0 < 4 ∧
    (∀ v ∈ traceSaves (main_local exParamsFailAt4 (Option.some 2) 6 "TS").trace, v < 4) ∧
    (lambda_handler exParamsLamFailAt4 (Option.some 2) 6 "TS").err
      = Option.some PyErr.nameError ∧
    (∀ v ∈ traceSaves (lambda_handler exParamsLamFailAt4 (Option.some 2) 6 "TS").trace, v < 4) ∧
    ((lambda_handler exParamsLamFailAt4 (Option.some 2) 6 "TS").store = Option.some 2 ∨
      ∃ m, m < 4 ∧ (lambda_handler exParamsLamFailAt4 (Option.some 2) 6 "TS").store
        = Option.some m) :=
  c7_protocol_error_aborts exParamsFailAt4 exParamsLamFailAt4 (Option.some 2) 6 4 "TS"
    (fun _ => exBlock) (fun _ => exBlockConv) (fun _ => [])
    (fun b hb => ⟨by simp only [exParamsFailAt4]; rw [if_neg (by omega)], rfl, rfl⟩)
    (fun b hb => by simp only [exParamsLamFailAt4]; rw [if_neg (by omega)])
    rfl rfl (by decide) (by decide) (by decide)

/-! ### C3 - checkpoint-after-write ordering -/

/-- `cpAfterWrite` distributes over trace concatenation. -/
theorem cpAfterWrite_append (range w : List Nat) (t1 t2 : List Event) :
    cpAfterWrite range w (t1 ++ t2) =
      (cpAfterWrite range w t1 && cpAfterWrite range (w ++ flatCovers t1) t2) := by
  induction t1 generalizing w with
  | nil => simp [cpAfterWrite, flatCovers]
  | cons e t ih =>
    simp only [List.cons_append, cpAfterWrite, flatCovers, List.append_eq, ih,
      List.append_assoc, Bool.and_assoc]

/-- What one local-variant iteration adds to the trace: a fetch event plus
zero, one or two artifact writes - never a checkpoint save - and on success
the new covered-or-batched set extends the old one by the fetched block. -/
theorem stepL_spec (P : ParamsL) (st : StL) (n : Nat) :
    ∃ tail, (stepL P st n).1.trace = st.trace ++ tail ∧
      (∀ r w, cpAfterWrite r w tail = true) ∧
      ((stepL P st n).2 = Option.none →
        (∀ b, (b ∈ flatCovers st.trace ∨ b ∈ st.bNums ∨ b = n) →
          (b ∈ flatCovers (stepL P st n).1.trace ∨ b ∈ (stepL P st n).1.bNums)) ∧
        ((stepL P st n).1.blocksData = [] → (stepL P st n).1.bNums = [])) := by
  rcases hb : P.blockOf n with _ | bd
  · exact ⟨[Event.fetch n], by simp [stepL, hb], fun r w => by simp [cpAfterWrite],
      by simp [stepL, hb]⟩
  · rcases hc : convert_block_data bd with er | rb
    · exact ⟨[Event.fetch n], by simp [stepL, hb, hc], fun r w => by simp [cpAfterWrite],
        by simp [stepL, hb, hc]⟩
    · rcases ht : pyIndexV rb "transactions" with er | tv
      · exact ⟨[Event.fetch n], by simp [stepL, hb, hc, ht], fun r w => by simp [cpAfterWrite],
          by simp [stepL, hb, hc, ht]⟩
      · rcases tv with _ | sv | nv | qv | tll | dd
        case list =>
          by_cases hBf : MAX_SIZE_BYTES ≤ P.gsB (st.blocksData ++ [dictRemoveV rb "transactions"]) <;>
            by_cases hTf : MAX_SIZE_BYTES ≤ P.gsT (st.txsData ++ tll)
          · refine ⟨([Event.fetch n] ++
              [Event.write ("blocks_" ++ Nat.repr st.bIdx ++ ".json")
                (st.blocksData ++ [dictRemoveV rb "transactions"]) (st.bNums ++ [n])] ++
              [Event.write ("transactions_" ++ Nat.repr st.tIdx ++ ".json")
                (st.txsData ++ tll) []]), ?_, fun r w => by simp [cpAfterWrite], fun _ => ⟨?_, ?_⟩⟩
            · simp [stepL, hb, hc, ht, hBf, hTf]
            · intro b hbb
              simp only [stepL, hb, hc, ht, hBf, hTf, if_true, if_false, flatCovers_append,
                flatCovers, coversOf, List.append_nil, List.mem_append]
              rcases hbb with h | h | h <;> simp [h]
            · intro hemp
              simp [stepL, hb, hc, ht, hBf, hTf] at hemp ⊢
          · refine ⟨([Event.fetch n] ++
              [Event.write ("blocks_" ++ Nat.repr st.bIdx ++ ".json")
                (st.blocksData ++ [dictRemoveV rb "transactions"]) (st.bNums ++ [n])]), ?_, fun r w => by simp [cpAfterWrite], fun _ => ⟨?_, ?_⟩⟩
            · simp [stepL, hb, hc, ht, hBf, hTf]
            · intro b hbb
              simp only [stepL, hb, hc, ht, hBf, hTf, if_true, if_false, flatCovers_append,
                flatCovers, coversOf, List.append_nil, List.mem_append]
              rcases hbb with h | h | h <;> simp [h]
            · intro hemp
              simp [stepL, hb, hc, ht, hBf, hTf] at hemp ⊢
          · refine ⟨([Event.fetch n] ++
              [Event.write ("transactions_" ++ Nat.repr st.tIdx ++ ".json")
                (st.txsData ++ tll) []]), ?_, fun r w => by simp [cpAfterWrite], fun _ => ⟨?_, ?_⟩⟩
            · simp [stepL, hb, hc, ht, hBf, hTf]
            · intro b hbb
              simp only [stepL, hb, hc, ht, hBf, hTf, if_true, if_false, flatCovers_append,
                flatCovers, coversOf, List.append_nil, List.mem_append]
              rcases hbb with h | h | h <;> simp [h]
            · intro hemp
              simp [stepL, hb, hc, ht, hBf, hTf] at hemp ⊢
          · refine ⟨[Event.fetch n], ?_, fun r w => by simp [cpAfterWrite], fun _ => ⟨?_, ?_⟩⟩
            · simp [stepL, hb, hc, ht, hBf, hTf]
            · intro b hbb
              simp only [stepL, hb, hc, ht, hBf, hTf, if_true, if_false, flatCovers_append,
                flatCovers, coversOf, List.append_nil, List.mem_append]
              rcases hbb with h | h | h <;> simp [h]
            · intro hemp
              simp [stepL, hb, hc, ht, hBf, hTf] at hemp ⊢
        all_goals exact ⟨[Event.fetch n], by simp [stepL, hb, hc, ht],
          fun r w => by simp [cpAfterWrite], by simp [stepL, hb, hc, ht]⟩

/-- Loop invariant of the local variant: checkpoint-after-write holds of
the trace so far, and every processed block is either covered by a written
artifact or still sitting in the block batch. -/
theorem runL_c3_inv (P : ParamsL) (range : List Nat) :
    ∀ (c s : Nat) (st : StL),
      cpAfterWrite range [] st.trace = true →
      (∀ b ∈ range, b < s → (b ∈ flatCovers st.trace ∨ b ∈ st.bNums)) →
      (st.blocksData = [] → st.bNums = []) →
      cpAfterWrite range [] (runL P (List.range' s c) st).1.trace = true ∧
      ((runL P (List.range' s c) st).2 = Option.none →
        (∀ b ∈ range, b < s + c → (b ∈ flatCovers (runL P (List.range' s c) st).1.trace
          ∨ b ∈ (runL P (List.range' s c) st).1.bNums)) ∧
        ((runL P (List.range' s c) st).1.blocksData = [] →
          (runL P (List.range' s c) st).1.bNums = [])) := by
  intro c
  induction c with
  | zero =>
    intro s st hA hP hE
    exact ⟨hA, fun _ => ⟨fun b hb hlt => hP b hb (by omega), hE⟩⟩
  | succ c ih =>
    intro s st hA hP hE
    obtain ⟨tail, htr, hcp, hsucc⟩ := stepL_spec P st s
    rcases hstep : stepL P st s with ⟨st1, e⟩
    rw [hstep] at htr hsucc
    have hA1 : cpAfterWrite range [] st1.trace = true := by
      rw [htr, cpAfterWrite_append, hA, Bool.true_and, List.nil_append]
      exact hcp range (flatCovers st.trace)
    show cpAfterWrite range [] (runL P (s :: List.range' (s + 1) c) st).1.trace = true ∧ _
    rcases e with _ | e
    · have hfacts := hsucc rfl
      simp only [runL, hstep]
      have := ih (s + 1) st1 hA1 (fun b hb hlt => by
        rcases Nat.lt_or_ge b s with h | h
        · exact hfacts.1 b (by
            rcases hP b hb h with h2 | h2
            · exact Or.inl h2
            · exact Or.inr (Or.inl h2))
        · have : b = s := by omega
          exact hfacts.1 b (Or.inr (Or.inr this))) hfacts.2
      refine ⟨this.1, fun he => ?_⟩
      obtain ⟨hcov, hemp⟩ := this.2 he
      exact ⟨fun b hb hlt => hcov b hb (by omega), hemp⟩
    · simp only [runL, hstep]
      exact ⟨hA1, fun h => by cases h⟩

/-- Cloud-variant counterpart of `stepL_spec`.  A flush appends
`write` then `saveCp`, in that order; the `saveCp n` check passes for any
prior written-set that covers the blocks of the range up to `n` except
those in the batch being written. -/
theorem stepLam_spec (P : ParamsLam) (ts : String) (st : StLam) (n : Nat) :
    ∃ tail, (stepLam P ts st n).1.trace = st.trace ++ tail ∧
      (∀ r w, (∀ b ∈ r, b ≤ n → (b ∈ w ∨ b ∈ st.bNums ∨ b = n)) →
        cpAfterWrite r w tail = true) ∧
      ((stepLam P ts st n).2 = Option.none →
        (∀ b, (b ∈ flatCovers st.trace ∨ b ∈ st.bNums ∨ b = n) →
          (b ∈ flatCovers (stepLam P ts st n).1.trace ∨ b ∈ (stepLam P ts st n).1.bNums)) ∧
        ((stepLam P ts st n).1.blocksData = [] → (stepLam P ts st n).1.bNums = [])) := by
  rcases hb : P.blockOf n with _ | bd
  · exact ⟨[Event.fetch n], by simp [stepLam, hb], fun r w _ => by simp [cpAfterWrite],
      by simp [stepLam, hb]⟩
  · by_cases hsz : MAX_SIZE_BYTES_LAMBDA ≤ P.gs (st.blocksData ++ [lambda_block_record bd])
    · refine ⟨[Event.fetch n] ++ [Event.write (lambdaName ts st.bIdx)
        (st.blocksData ++ [lambda_block_record bd]) (st.bNums ++ [n]), Event.saveCp n],
        ?_, ?_, fun _ => ⟨?_, ?_⟩⟩
      · simp [stepLam, hb, hsz]
      · intro r w hcond
        simp only [cpAfterWrite, coversOf, Bool.and_true, Bool.true_and, List.append_nil]
        rw [List.all_eq_true]
        intro b hbmem
        rcases le_or_lt b n with hle | hlt
        · rcases hcond b hbmem hle with h | h | h
          · simp [h]
          · simp [h]
          · simp [h]
        · simp [Nat.lt_iff_add_one_le.mp hlt]
          omega
      · intro b hbb
        simp only [stepLam, hb, hsz, if_true, flatCovers_append, flatCovers, coversOf,
          List.append_nil, List.mem_append]
        rcases hbb with h | h | h <;> simp [h]
      · intro hemp
        simp [stepLam, hb, hsz] at hemp ⊢
    · refine ⟨[Event.fetch n], ?_, fun r w _ => by simp [cpAfterWrite], fun _ => ⟨?_, ?_⟩⟩
      · simp [stepLam, hb, hsz]
      · intro b hbb
        simp only [stepLam, hb, hsz, if_false, flatCovers_append, flatCovers, coversOf,
          List.append_nil, List.mem_append]
        rcases hbb with h | h | h <;> simp [h]
      · intro hemp
        simp [stepLam, hb, hsz] at hemp ⊢

/-- Loop invariant of the cloud variant, as `runL_c3_inv`. -/
theorem runLam_c3_inv (P : ParamsLam) (ts : String) (range : List Nat) :
    ∀ (c s : Nat) (st : StLam),
      cpAfterWrite range [] st.trace = true →
      (∀ b ∈ range, b < s → (b ∈ flatCovers st.trace ∨ b ∈ st.bNums)) →
      (st.blocksData = [] → st.bNums = []) →
      cpAfterWrite range [] (runLam P ts (List.range' s c) st).1.trace = true ∧
      ((runLam P ts (List.range' s c) st).2 = Option.none →
        (∀ b ∈ range, b < s + c →
          (b ∈ flatCovers (runLam P ts (List.range' s c) st).1.trace
            ∨ b ∈ (runLam P ts (List.range' s c) st).1.bNums)) ∧
        ((runLam P ts (List.range' s c) st).1.blocksData = [] →
          (runLam P ts (List.range' s c) st).1.bNums = [])) := by
  intro c
  induction c with
  | zero =>
    intro s st hA hP hE
    exact ⟨hA, fun _ => ⟨fun b hb hlt => hP b hb (by omega), hE⟩⟩
  | succ c ih =>
    intro s st hA hP hE
    obtain ⟨tail, htr, hcp, hsucc⟩ := stepLam_spec P ts st s
    rcases hstep : stepLam P ts st s with ⟨st1, e⟩
    rw [hstep] at htr hsucc
    have hA1 : cpAfterWrite range [] st1.trace = true := by
      rw [htr, cpAfterWrite_append, hA, Bool.true_and, List.nil_append]
      refine hcp range (flatCovers st.trace) ?_
      intro b hb hle
      rcases Nat.lt_or_ge b s with h | h
      · rcases hP b hb h with h2 | h2
        · exact Or.inl h2
        · exact Or.inr (Or.inl h2)
      · exact Or.inr (Or.inr (by omega))
    show cpAfterWrite range [] (runLam P ts (s :: List.range' (s + 1) c) st).1.trace = true ∧ _
    rcases e with _ | e
    · have hfacts := hsucc rfl
      simp only [runLam, hstep]
      have := ih (s + 1) st1 hA1 (fun b hb hlt => by
        rcases Nat.lt_or_ge b s with h | h
        · exact hfacts.1 b (by
            rcases hP b hb h with h2 | h2
            · exact Or.inl h2
            · exact Or.inr (Or.inl h2))
        · have : b = s := by omega
          exact hfacts.1 b (Or.inr (Or.inr this))) hfacts.2
      refine ⟨this.1, fun he => ?_⟩
      obtain ⟨hcov, hemp⟩ := this.2 he
      exact ⟨fun b hb hlt => hcov b hb (by omega), hemp⟩
    · simp only [runLam, hstep]
      exact ⟨hA1, fun h => by cases h⟩

/-- Finalization: appending the remaining-batch writes and then the final
`saveCp latest` keeps the checker true, provided every block of the range
is covered once those writes land. -/
theorem cpAfterWrite_final (rng : List Nat) (A tr1 tr2 : List Event) (latest : Nat)
    (hA : cpAfterWrite rng [] A = true)
    (h1 : ∀ w, cpAfterWrite rng w tr1 = true) (h2 : ∀ w, cpAfterWrite rng w tr2 = true)
    (hcov : ∀ b ∈ rng, b ≤ latest →
      b ∈ flatCovers A ++ (flatCovers tr1 ++ flatCovers tr2)) :
    cpAfterWrite rng [] (A ++ (tr1 ++ (tr2 ++ [Event.saveCp latest]))) = true := by
  rw [cpAfterWrite_append, cpAfterWrite_append, cpAfterWrite_append]
  simp only [hA, h1, h2, Bool.true_and, List.nil_append]
  simp only [cpAfterWrite, coversOf, Bool.and_true]
  rw [List.all_eq_true]
  intro b hb
  rcases le_or_lt b latest with hle | hlt
  · have := hcov b hb hle
    simp only [List.mem_append] at this
    simp only [List.append_assoc]
    rcases this with h | h | h <;> simp [h]
  · simp [hlt]

/-- C3.  In every run of either variant (any fetch oracle, any size
estimator, any initial checkpoint, any latest ≥ 1), the trace satisfies
checkpoint-after-write: whenever a checkpoint value `n` is persisted, every
block of the run's range up to `n` is already contained in an artifact
written earlier in the trace.  (The sentinel insert of 0 on an empty store
checkpoints no block: all blocks of the range are positive.) -/
theorem c3_checkpoint_after_write (PL : ParamsL) (PLam : ParamsLam) (store0 : Option Nat) (latest : Nat)
    (ts : String) (hlat : 1 ≤ latest) :
    cpAfterWrite (blockRange (startBlock store0 latest) latest) []
      (main_local PL store0 latest ts).trace = true ∧
    cpAfterWrite (blockRange (startBlock store0 latest) latest) []
      (lambda_handler PLam store0 latest ts).trace = true := by
  have hstart1 : 1 ≤ startBlock store0 latest := by
    unfold startBlock
    split <;> omega
  have hmem : ∀ b ∈ blockRange (startBlock store0 latest) latest,
      startBlock store0 latest ≤ b ∧ b ≤ latest ∧
        b < startBlock store0 latest + (latest + 1 - startBlock store0 latest) := by
    intro b hb
    have := List.mem_range'_1.mp hb
    omega
  constructor
  · -- local variant
    have hA0 : cpAfterWrite (blockRange (startBlock store0 latest) latest) []
        (initTrace store0) = true := by
      rcases store0 with _ | c
      · simp only [initTrace, cpAfterWrite, Bool.and_true]
        rw [List.all_eq_true]
        intro b hb
        have := hmem b hb
        simp
        omega
      · rfl
    have inv := runL_c3_inv PL (blockRange (startBlock store0 latest) latest)
      (latest + 1 - startBlock store0 latest) (startBlock store0 latest)
      { blocksData := [], txsData := [], bNums := [], bIdx := 1, tIdx := 1,
        trace := initTrace store0 }
      hA0 (fun b hb hlt => absurd (hmem b hb).1 (by omega)) (fun _ => rfl)
    rcases hres : runL PL (blockRange (startBlock store0 latest) latest)
      { blocksData := [], txsData := [], bNums := [], bIdx := 1, tIdx := 1,
        trace := initTrace store0 } with ⟨stf, e⟩
    have hresx : runL PL (List.range' (startBlock store0 latest)
        (latest + 1 - startBlock store0 latest))
        { blocksData := [], txsData := [], bNums := [], bIdx := 1, tIdx := 1,
          trace := initTrace store0 } = (stf, e) := hres
    rw [hresx] at inv
    rcases e with _ | e
    · obtain ⟨hcov, hemp⟩ := inv.2 rfl
      simp only [main_local, hres]
      rw [List.append_assoc, List.append_assoc]
      apply cpAfterWrite_final
      · exact inv.1
      · intro w
        split <;> simp [cpAfterWrite]
      · intro w
        split <;> simp [cpAfterWrite]
      · intro b hb hle
        rcases hcov b hb (hmem b hb).2.2 with h | h
        · simp [List.mem_append, h]
        · by_cases hbe : stf.blocksData.isEmpty
          · have : stf.bNums = [] := hemp (List.isEmpty_iff.mp hbe)
            rw [this] at h
            cases h
          · simp only [List.mem_append]
            right
            left
            simp [hbe, flatCovers, coversOf, h]
    · simp only [main_local, hres]
      exact inv.1
  · -- lambda variant
    have inv := runLam_c3_inv PLam ts (blockRange (startBlock store0 latest) latest)
      (latest + 1 - startBlock store0 latest) (startBlock store0 latest)
      { blocksData := [], bNums := [], bIdx := 1, store := store0, trace := [] }
      rfl (fun b hb hlt => absurd (hmem b hb).1 (by omega)) (fun _ => rfl)
    rcases hres : runLam PLam ts (blockRange (startBlock store0 latest) latest)
      { blocksData := [], bNums := [], bIdx := 1, store := store0, trace := [] } with ⟨stf, e⟩
    have hresx : runLam PLam ts (List.range' (startBlock store0 latest)
        (latest + 1 - startBlock store0 latest))
        { blocksData := [], bNums := [], bIdx := 1, store := store0, trace := [] }
        = (stf, e) := hres
    rw [hresx] at inv
    rcases e with _ | e
    · obtain ⟨hcov, hemp⟩ := inv.2 rfl
      simp only [lambda_handler, hres]
      rw [List.append_assoc]
      have : (if stf.blocksData.isEmpty then ([] : List Event)
          else [Event.write (lambdaName ts stf.bIdx) stf.blocksData stf.bNums]) ++
          [Event.saveCp latest] =
          (if stf.blocksData.isEmpty then ([] : List Event)
          else [Event.write (lambdaName ts stf.bIdx) stf.blocksData stf.bNums]) ++
          (([] : List Event) ++ [Event.saveCp latest]) := by simp
      rw [this]
      apply cpAfterWrite_final
      · exact inv.1
      · intro w
        split <;> simp [cpAfterWrite]
      · intro w
        simp [cpAfterWrite]
      · intro b hb hle
        rcases hcov b hb (hmem b hb).2.2 with h | h
        · simp [List.mem_append, h]
        · by_cases hbe : stf.blocksData.isEmpty
          · have : stf.bNums = [] := hemp (List.isEmpty_iff.mp hbe)
            rw [this] at h
            cases h
          · simp only [List.mem_append]
            right
            left
            simp [hbe, flatCovers, coversOf, h]
    · simp only [lambda_handler, hres]
      exact inv.1

/-- Witness for `c3_checkpoint_after_write`: a run with checkpoint 1,
latest 3, in which every block triggers a mid-run flush. -/
theorem c3_checkpoint_after_write_witness :
    cpAfterWrite (blockRange (startBlock (Option.some 1) 3) 3) []
      (main_local exParamsFlushB (Option.some 1) 3 "TS").trace = true ∧
    cpAfterWrite (blockRange (startBlock (Option.some 1) 3) 3) []
      (lambda_handler exParamsLamFlush (Option.some 1) 3 "TS").trace = true :=
  c3_checkpoint_after_write exParamsFlushB exParamsLamFlush (Option.some 1) 3 "TS" (by decide)

/-! ### C9 amended - exact round trip on lowercase hex digit strings -/

/-- Every lowercase hex digit is not Python whitespace. -/
theorem lower_not_space : ∀ c ∈ lowerHexChars, isPySpace c = false := by decide

/-- On lowercase hex digits, `hexDigit?` returns the digit value, which is below 16. -/
theorem lower_hexDigit : ∀ c ∈ lowerHexChars,
    hexDigit? c = Option.some (hexValD c) ∧ hexValD c < 16 := by decide

/-- Rendering the value of a lowercase hex digit gives back the digit. -/
theorem lower_hexChar_val : ∀ c ∈ lowerHexChars, hexChar (hexValD c) = c := by decide

/-- A lowercase hex digit other than `'0'` has nonzero value. -/
theorem lower_val_ne_zero : ∀ c ∈ lowerHexChars, c ≠ '0' → hexValD c ≠ 0 := by decide

/-- One step of `hexTail` on a lowercase hex digit. -/
theorem hexTail_cons_lower : ∀ c ∈ lowerHexChars, ∀ (acc : Nat) (cs : List Char),
    hexTail acc (c :: cs) = hexTail (16 * acc + hexValD c) cs := by
  intro c hc
  fin_cases hc <;> (intro acc cs; rfl)

/-- A `0x`-prefixed lowercase hex string has no surrounding whitespace to strip. -/
theorem listTrim_hex (ds : List Char) (hne : ds ≠ [])
    (hhex : ∀ c ∈ ds, c ∈ lowerHexChars) :
    listTrim ('0' :: 'x' :: ds) = '0' :: 'x' :: ds := by
  unfold listTrim
  rw [List.dropWhile_cons]
  simp only [show isPySpace '0' = false from rfl, Bool.false_eq_true, if_false]
  rw [List.reverse_cons, List.reverse_cons]
  rcases hrev : ds.reverse with _ | ⟨c, t⟩
  · exact absurd (List.reverse_eq_nil_iff.mp hrev) hne
  · have hc : c ∈ ds := by
      have : c ∈ ds.reverse := by rw [hrev]; exact List.mem_cons_self c t
      exact List.mem_reverse.mp this
    rw [List.cons_append, List.cons_append, List.dropWhile_cons]
    simp only [lower_not_space c (hhex c hc), Bool.false_eq_true, if_false]
    rw [← List.cons_append, ← List.cons_append, ← hrev, ← List.reverse_cons,
      ← List.reverse_cons, List.reverse_reverse]

/-- On all-lowercase digit lists the digit parser is total and computes the
base-16 left fold. -/
theorem hexTail_lower (ds : List Char) (hhex : ∀ c ∈ ds, c ∈ lowerHexChars) :
    ∀ acc : Nat, hexTail acc ds =
      Option.some (ds.foldl (fun a c => 16 * a + hexValD c) acc) := by
  induction ds with
  | nil => intro acc; rfl
  | cons c cs ih =>
    intro acc
    rw [hexTail_cons_lower c (hhex c (List.mem_cons_self c cs)) acc cs, List.foldl_cons]
    exact ih (fun d hd => hhex d (List.mem_cons_of_mem c hd)) (16 * acc + hexValD c)

/-- The base-16 left fold equals `Nat.ofDigits` on the reversed digit-value list. -/
theorem foldl_hex_ofDigits : ∀ (l : List Char) (acc : Nat),
    l.foldl (fun a c => 16 * a + hexValD c) acc =
      acc * 16 ^ l.length + Nat.ofDigits 16 (l.map hexValD).reverse := by
  intro l
  induction l with
  | nil => intro acc; simp [Nat.ofDigits_nil]
  | cons c cs ih =>
    intro acc
    rw [List.foldl_cons, ih, List.map_cons, List.reverse_cons, Nat.ofDigits_append]
    simp only [List.length_cons, List.length_reverse, List.length_map,
      Nat.ofDigits_cons, Nat.ofDigits_nil]
    push_cast
    ring

/-- Leading zero digits contribute nothing to `Nat.ofDigits`. -/
theorem ofDigits_replicate_zero : ∀ k : Nat, Nat.ofDigits 16 (List.replicate k 0) = 0 := by
  intro k
  induction k with
  | zero => rfl
  | succ k ih => simp [List.replicate, Nat.ofDigits_cons, ih]

/-- The head surviving `dropWhile` falsifies the predicate. -/
theorem dropWhile_head_false {p : Char → Bool} :
    ∀ (l : List Char) (c : Char) (t : List Char), l.dropWhile p = c :: t → p c = false := by
  intro l
  induction l with
  | nil => intro c t h; cases h
  | cons a l ih =>
    intro c t h
    rw [List.dropWhile_cons] at h
    by_cases ha : p a
    · rw [if_pos ha] at h
      exact ih c t h
    · rw [if_neg ha] at h
      injection h with h1 _
      rw [← h1]
      exact Bool.of_not_eq_true ha

/-- With enough fuel, `natToHexRev` computes the base-16 digits rendered as
characters (least significant first). -/
theorem natToHexRev_eq_digits : ∀ (fuel n : Nat), n ≤ fuel →
    natToHexRev fuel n = (Nat.digits 16 n).map hexChar := by
  intro fuel
  induction fuel with
  | zero =>
    intro n hn
    have : n = 0 := by omega
    subst this
    simp [natToHexRev]
  | succ fuel ih =>
    intro n hn
    by_cases h0 : n = 0
    · subst h0; simp [natToHexRev]
    · rw [show natToHexRev (fuel + 1) n =
        (if n = 0 then [] else hexChar (n % 16) :: natToHexRev fuel (n / 16)) from rfl,
        if_neg h0]
      rw [Nat.digits_def' (by norm_num : (1:Nat) < 16) (Nat.pos_of_ne_zero h0), List.map_cons]
      congr 1
      have hdiv : n / 16 ≤ fuel := by
        have := Nat.div_lt_self (Nat.pos_of_ne_zero h0) (by norm_num : (1:Nat) < 16)
        omega
      exact ih (n / 16) hdiv

/-- On an already-trimmed `0x`-prefixed list, `int(s, 16)` reduces to the
prefixed-tail parser. -/
theorem pyIntBase16_prefixed (l : List Char)
    (htrim : listTrim ('0' :: 'x' :: l) = '0' :: 'x' :: l) :
    pyIntBase16 (String.mk ('0' :: 'x' :: l)) =
      (hexPrefixedTail l).map (fun n => Int.ofNat n) := by
  unfold pyIntBase16
  rw [show (String.mk ('0' :: 'x' :: l)).toList = '0' :: 'x' :: l from rfl, htrim]
  rfl

/-- C9 (amended).  For every nonempty string of lowercase hexadecimal digits
`ds`, the program's hex-to-int conversion (`int("0x" ++ ds, 16)`, embedded as
`pyIntBase16`) succeeds with the base-16 value of `ds`, and rendering that
value back with `hex` (embedded as `pyHex`) returns `"0x" ++ ds` with leading
zeros stripped (`"0x0"` when `ds` is all zeros): the round trip is the
identity up to leading-zero normalization, which is exact on strings with no
leading zeros. -/
theorem c9_roundtrip_lower (ds : List Char) (hne : ds ≠ [])
    (hhex : ∀ c ∈ ds, c ∈ lowerHexChars) :
    pyIntBase16 (String.mk ('0' :: 'x' :: ds)) = Option.some (Int.ofNat (hexListVal ds)) ∧
    pyHex (Int.ofNat (hexListVal ds)) = String.mk ('0' :: 'x' :: stripLeadZeros ds) := by
  constructor
  · rw [pyIntBase16_prefixed ds (listTrim_hex ds hne hhex)]
    obtain ⟨c, cs, hdc⟩ : ∃ c cs, ds = c :: cs := by
      rcases ds with _ | ⟨c, cs⟩
      · exact absurd rfl hne
      · exact ⟨c, cs, rfl⟩
    subst hdc
    show (hexTail 0 (c :: cs)).map (fun n => Int.ofNat n) = _
    rw [hexTail_lower _ hhex 0]
    rfl
  · have hval : hexListVal ds = Nat.ofDigits 16 ((ds.map hexValD).reverse) := by
      unfold hexListVal
      rw [foldl_hex_ofDigits]
      simp
    have hsplit : ds.takeWhile (fun c => c == '0') ++ ds.dropWhile (fun c => c == '0') = ds :=
      List.takeWhile_append_dropWhile _ _
    have hmapzeros : (ds.takeWhile (fun c => c == '0')).map hexValD =
        List.replicate (ds.takeWhile (fun c => c == '0')).length 0 := by
      apply List.eq_replicate.mpr
      refine ⟨by simp, ?_⟩
      intro b hb
      obtain ⟨x, hx, rfl⟩ := List.mem_map.mp hb
      have := List.mem_takeWhile_imp hx
      have hx0 : x = '0' := by simpa using this
      rw [hx0]
      rfl
    have hv2 : hexListVal ds =
        Nat.ofDigits 16 (((ds.dropWhile (fun c => c == '0')).map hexValD).reverse) := by
      rw [hval]
      conv_lhs => rw [← hsplit]
      rw [List.map_append, List.reverse_append, Nat.ofDigits_append, hmapzeros,
        List.reverse_replicate, ofDigits_replicate_zero]
      simp
    rcases hcase : ds.dropWhile (fun c => c == '0') with _ | ⟨c, t⟩
    · have hv0 : hexListVal ds = 0 := by
        rw [hv2, hcase]
        rfl
      rw [hv0]
      have hstrip : stripLeadZeros ds = ['0'] := by
        unfold stripLeadZeros
        rw [hcase]
      rw [hstrip]
      rfl
    · have hsub' : ∀ x ∈ c :: t, x ∈ ds := by
        intro x hx
        rw [← hsplit]
        refine List.mem_append.mpr (Or.inr ?_)
        rw [hcase]
        exact hx
      have hLeq : ((c :: t).map hexValD).reverse = (t.map hexValD).reverse ++ [hexValD c] := by
        rw [List.map_cons, List.reverse_cons]
      have hL : ∀ d ∈ (t.map hexValD).reverse ++ [hexValD c], d < 16 := by
        intro d hd
        rw [← hLeq, List.mem_reverse] at hd
        obtain ⟨x, hx, rfl⟩ := List.mem_map.mp hd
        exact (lower_hexDigit x (hhex x (hsub' x hx))).2
      have hcne : c ≠ '0' := by
        have hpc := dropWhile_head_false ds c t hcase
        intro hc0
        rw [hc0] at hpc
        simp at hpc
      have hlast : ∀ h : (t.map hexValD).reverse ++ [hexValD c] ≠ [],
          ((t.map hexValD).reverse ++ [hexValD c]).getLast h ≠ 0 := by
        intro h
        rw [List.getLast_concat _]
        exact lower_val_ne_zero c (hhex c (hsub' c (List.mem_cons_self c t))) hcne
      have hdig : Nat.digits 16 (hexListVal ds) = (t.map hexValD).reverse ++ [hexValD c] := by
        rw [hv2, hcase, hLeq]
        exact Nat.digits_ofDigits 16 (by norm_num) _ hL hlast
      have hvne : hexListVal ds ≠ 0 := by
        intro h0
        rw [h0, Nat.digits_zero] at hdig
        simp at hdig
      have hrender : natToHexDigits (hexListVal ds) = c :: t := by
        unfold natToHexDigits
        rw [natToHexRev_eq_digits _ _ (le_refl _), hdig, ← hLeq, List.map_reverse,
          List.reverse_reverse, List.map_map]
        rw [show (hexChar ∘ hexValD) = (fun x => hexChar (hexValD x)) from rfl]
        rw [List.map_congr_left (fun x hx => lower_hexChar_val x (hhex x (hsub' x hx)))]
        exact List.map_id (c :: t)
      have hstrip : stripLeadZeros ds = c :: t := by
        unfold stripLeadZeros
        rw [hcase]
      rw [hstrip]
      unfold pyHex
      rw [if_neg (show ¬ Int.ofNat (hexListVal ds) < 0 from
          not_lt.mpr (Int.natCast_nonneg _)),
        if_neg (by
          intro h
          have h' : Int.ofNat (hexListVal ds) = Int.ofNat 0 := h
          exact hvne (Int.ofNat.inj h'))]
      rw [show (Int.ofNat (hexListVal ds)).toNat = hexListVal ds from rfl, hrender]
      rfl

/-- Witness for `c9_roundtrip_lower`: the string `"0x0f"` parses to 15 and
renders back as `"0xf"`, its leading-zero normalization. -/
theorem c9_roundtrip_lower_witness :
    pyIntBase16 (String.mk ('0' :: 'x' :: ['0', 'f'])) =
      Option.some (Int.ofNat (hexListVal ['0', 'f'])) ∧
    pyHex (Int.ofNat (hexListVal ['0', 'f'])) =
      String.mk ('0' :: 'x' :: stripLeadZeros ['0', 'f']) :=
  c9_roundtrip_lower ['0', 'f'] (by decide) (by decide)
